import Mathlib

set_option maxRecDepth 8192

/-!
Verification development for the audio-generation pipeline of the
mandarin-practice-web repository (`generate-audio.py`).

The Python source is shallowly embedded: pure helpers become Lean
functions, the per-item orchestrator loops become explicit state-passing
folds, the filesystem (the Asset Store, i.e. the `audio/` directory)
becomes an association list from filename to content, and exceptional
control flow becomes `Except`.  Python distinguishes `Exception`
(caught by the per-item `except Exception` handlers) from `SystemExit`
(raised by `sys.exit`, NOT caught by those handlers); the embedding
mirrors this with the two constructors of `Err`.

Note on string literals: the repository copy of `generate-audio.py` is
UTF-8 text whose Chinese literals appear double-encoded; for example the
replacement name literal at line 104 is the five-character string with
codepoints U+00E5 U+00B0 U+00E6 U+02DC U+017D.  The embedding reproduces
every literal exactly as Python reads it from that file (escaped below
for byte-exactness).
-/

/-- Python exception model: `exc` is an ordinary `Exception` (caught by
`except Exception`), `exit` is `SystemExit` raised by `sys.exit(code)`
(not caught by `except Exception`). -/
inductive Err
  | exc (msg : String)
  | exit (code : Nat)
deriving DecidableEq, Repr

/-- Audio payload format written to disk. -/
inductive AudioFmt
  | mp3
  | wav
deriving DecidableEq, Repr

/-- Contents of one Asset Store entry (one file in `audio/`). `pre` is a
file that was already present before the run; `synth` is audio produced
during the run by the named engine, in the given format, for the given
synthesis text and (optional) voice. -/
inductive Content
  | pre (tag : Nat)
  | synth (engine : String) (fmt : AudioFmt) (text : String) (voice : Option String)
deriving DecidableEq, Repr

/-- The Asset Store: the `audio/` output directory, as a finite map from
filename to file content (association list, first binding wins). -/
abbrev Store := List (String × Content)

/-- File lookup in the Asset Store (`output_path.exists()` plus reading). -/
def lookupStore : Store → String → Option Content
  | [], _ => none
  | (k, v) :: rest, key => if k = key then some v else lookupStore rest key

/-- Writing a file: overwrite the binding if present, else append it. -/
def setStore : Store → String → Content → Store
  | [], key, v => [(key, v)]
  | (k, w) :: rest, key, v =>
      if k = key then (key, v) :: rest else (k, w) :: setStore rest key v

/-- One line printed by the script during the generation loop, in order:
`[skip]`, `[would generate]`, `[generating]`, `Error: ...`, and the
"Loading ... model" notice printed by the local engines. -/
inductive LogEvent
  | skip (filename : String)
  | wouldGenerate (filename text : String)
  | generating (filename text : String)
  | error (msg : String)
  | loadingModel
deriving DecidableEq, Repr

/-- One unit of work handed to a generation loop: the dict with keys
`text`, `text_for_audio` and `filename` built by `extract_phrases` /
`extract_names` (positional fields `day`/`index`/`pinyin` are dropped
because the loops never read them). -/
structure Item where
  text : String
  text_for_audio : String
  filename : String
deriving DecidableEq, Repr

/-! ## Python `str.replace` (placeholder substitution) -/

/-- Helper for `pyReplace`, structurally recursive on the string: while
`skip > 0` the character was already consumed as part of a replaced
occurrence; at `skip = 0` test for an occurrence of the pattern at the
current position. -/
def pyRepAux (p r : List Char) : Nat → List Char → List Char
  | 0, [] => []
  | 0, c :: cs =>
      if p ≠ [] ∧ p.isPrefixOf (c :: cs) = true then
        r ++ pyRepAux p r (p.length - 1) cs
      else
        c :: pyRepAux p r 0 cs
  | _ + 1, [] => []
  | skip + 1, _ :: cs => pyRepAux p r skip cs

/-- Python's `s.replace(p, r)` for a nonempty pattern `p`: scan left to
right, replacing non-overlapping occurrences of `p` by `r`.  (For an
empty `p` the guard fails and the string is copied unchanged; the
pipeline only ever uses the nonempty pattern `{\x7bNAME\x7d}`.) -/
def pyReplace (p r s : List Char) : List Char :=
  pyRepAux p r 0 s

/-- Skipping `k` characters in the helper is dropping them. -/
theorem pyRepAux_skip (p r : List Char) :
    ∀ k s, pyRepAux p r k s = pyRepAux p r 0 (List.drop k s) := by
  intro k
  induction k with
  | zero => intro s; rw [List.drop_zero]
  | succ n ih =>
      intro s
      cases s with
      | nil => rw [pyRepAux, List.drop_nil, pyRepAux]
      | cons c cs => rw [pyRepAux, List.drop_succ_cons, ih]

theorem pyReplace_nil (p r : List Char) : pyReplace p r [] = [] := rfl

/-- Unfolding: an occurrence of the pattern at the head is replaced and
scanning resumes after it. -/
theorem pyReplace_cons_pos (p r : List Char) (c : Char) (cs : List Char)
    (hp : p ≠ []) (hpre : p.isPrefixOf (c :: cs) = true) :
    pyReplace p r (c :: cs) = r ++ pyReplace p r (List.drop (p.length - 1) cs) := by
  show pyRepAux p r 0 (c :: cs) = _
  rw [pyRepAux, if_pos ⟨hp, hpre⟩, pyRepAux_skip]
  rfl

/-- Unfolding: no occurrence at the head copies the character. -/
theorem pyReplace_cons_neg (p r : List Char) (c : Char) (cs : List Char)
    (h : ¬ (p ≠ [] ∧ p.isPrefixOf (c :: cs) = true)) :
    pyReplace p r (c :: cs) = c :: pyReplace p r cs := by
  show pyRepAux p r 0 (c :: cs) = _
  rw [pyRepAux, if_neg h]
  rfl

/-- The reserved placeholder token (`'{\x7bNAME\x7d}'` in the source). -/
def nameToken : String := "\x7b\x7bNAME\x7d\x7d"

/-- The fixed proper name substituted for the placeholder (the literal at
line 104 of `generate-audio.py`, as Python reads this repository copy). -/
def fixedName : String := "\u00e5\u00b0\u00e6\u02dc\u017d"

/-- `chars.replace('{\x7bNAME\x7d}', fixedName)`: the placeholder
substitution producing `text_for_audio` from `text`. -/
def substituteName (s : String) : String :=
  String.mk (pyReplace nameToken.data fixedName.data s.data)

/-! ## Document Scanner (`extract_phrases` regex matching)

The scanner mirrors the two `re.findall` calls:

* `type:\s*["\']speaking["\'].*?phrases:\s*\[(.*?)\]` with `re.DOTALL`,
* `characters:\s*["\']([^"\']+)["\']`

as specialized left-to-right scanning functions: literal pieces are
matched directly, `\s*` greedily consumes whitespace (the following
required character is never whitespace, so no backtracking arises),
`.*?` and `(.*?)` are lazy (shortest match), `[^"\']+` is a maximal
nonempty run of non-quote characters followed by a required quote, and
scanning resumes after the end of each match (`re.findall` semantics).
ASCII whitespace is modelled; the curriculum documents use no exotic
Unicode whitespace between tokens. -/

/-- Python `\s` (ASCII range). -/
def isPySpace (c : Char) : Bool :=
  c = ' ' || c = '\t' || c = '\n' || c = '\x0d' || c = '\x0b' || c = '\x0c'

/-- The character class `["\']`. -/
def isQuoteChar (c : Char) : Bool :=
  c = '"' || c = '\''

/-- Consume a literal; `none` if the input does not start with it. -/
def matchLit : List Char → List Char → Option (List Char)
  | [], s => some s
  | _ :: _, [] => none
  | l :: ls, c :: cs => if c = l then matchLit ls cs else none

/-- Consume `\s*`. -/
def dropSpaces : List Char → List Char
  | [] => []
  | c :: cs => if isPySpace c then dropSpaces cs else c :: cs

/-- Consume one `["\']`. -/
def matchQuote : List Char → Option (List Char)
  | [] => none
  | c :: cs => if isQuoteChar c then some cs else none

/-- Split at the first `]`: the lazy capture `(.*?)\]`. -/
def splitAtRBracket : List Char → Option (List Char × List Char)
  | [] => none
  | c :: cs =>
      if c = ']' then some ([], cs)
      else
        match splitAtRBracket cs with
        | none => none
        | some (a, b) => some (c :: a, b)

/-- Try `phrases:\s*\[(.*?)\]` at the current position. -/
def matchPhrasesTail (s : List Char) : Option (List Char × List Char) :=
  match matchLit "phrases:".data s with
  | none => none
  | some s1 =>
      match dropSpaces s1 with
      | '[' :: s2 => splitAtRBracket s2
      | _ => none

/-- The lazy `.*?phrases:\s*\[(.*?)\]`: find the earliest position where
the tail matches (shortest `.*?`). -/
def lazyFindPhrases : List Char → Option (List Char × List Char)
  | [] => matchPhrasesTail []
  | s@(_ :: cs) =>
      match matchPhrasesTail s with
      | some r => some r
      | none => lazyFindPhrases cs

/-- Try the whole block pattern
`type:\s*["\']speaking["\'].*?phrases:\s*\[(.*?)\]` at the current
position; on success return (captured block body, rest of input). -/
def matchSpeakingAt (s : List Char) : Option (List Char × List Char) :=
  match matchLit "type:".data s with
  | none => none
  | some s1 =>
      match matchQuote (dropSpaces s1) with
      | none => none
      | some s2 =>
          match matchLit "speaking".data s2 with
          | none => none
          | some s3 =>
              match matchQuote s3 with
              | none => none
              | some s4 => lazyFindPhrases s4

/-- `re.findall` scan for the block pattern (fuel = input length; each
step either advances one character or consumes a nonempty match). -/
def findSpeakingBlocks : Nat → List Char → List (List Char)
  | 0, _ => []
  | _ + 1, [] => []
  | fuel + 1, s@(_ :: cs) =>
      match matchSpeakingAt s with
      | some (cap, rest) => cap :: findSpeakingBlocks fuel rest
      | none => findSpeakingBlocks fuel cs

/-- Try `characters:\s*["\']([^"\']+)["\']` at the current position. -/
def matchCharsAt (s : List Char) : Option (List Char × List Char) :=
  match matchLit "characters:".data s with
  | none => none
  | some s1 =>
      match matchQuote (dropSpaces s1) with
      | none => none
      | some s2 =>
          let run := s2.takeWhile (fun c => !isQuoteChar c)
          let rest := s2.dropWhile (fun c => !isQuoteChar c)
          if run = [] then none
          else
            match matchQuote rest with
            | none => none
            | some rest2 => some (run, rest2)

/-- `re.findall` scan for the `characters:` pattern inside one block. -/
def findCharMatches : Nat → List Char → List (List Char)
  | 0, _ => []
  | _ + 1, [] => []
  | fuel + 1, s@(_ :: cs) =>
      match matchCharsAt s with
      | some (cap, rest) => cap :: findCharMatches fuel rest
      | none => findCharMatches fuel cs

/-- One extracted speaking phrase (`extract_phrases` dict). -/
structure Phrase where
  day : Nat
  index : Nat
  text : String
  text_for_audio : String
  filename : String
deriving DecidableEq, Repr

/-- The body of `extract_phrases` once the curriculum text has been
read: scan for speaking blocks (`enumerate(matches, 1)`, so `day` is
1-based scan order), scan each block for `characters:` fields
(`enumerate`, so `index` is 0-based), substitute the placeholder, and
derive the filename `day{day}_speaking_phrase{index}.mp3`. -/
def extractPhrasesFrom (content : String) : List Phrase :=
  let blocks := findSpeakingBlocks content.data.length content.data
  (blocks.enum.map (fun bi =>
    let day := bi.fst + 1
    let block := bi.snd
    let charMatches := findCharMatches block.length block
    charMatches.enum.map (fun ci =>
      let chars : String := String.mk ci.snd
      Phrase.mk day ci.fst chars (substituteName chars)
        ("day" ++ toString day ++ "_speaking_phrase"
          ++ toString ci.fst ++ ".mp3")))).flatten

/-- `extract_phrases`: if the curriculum file does not exist the script
prints an error and calls `sys.exit(1)`; otherwise it extracts from the
file's text.  The file system is abstracted as `Option String`. -/
def extract_phrases (sourceContent : Option String) : Except Err (List Phrase) :=
  match sourceContent with
  | none => Except.error (Err.exit 1)
  | some content => Except.ok (extractPhrasesFrom content)

/-- One entry of the in-code `CHINESE_NAMES` table. -/
structure NameEntry where
  chinese : String
  pinyin : String
  english : String
deriving DecidableEq, Repr

/-- The `CHINESE_NAMES` table, literal for literal (non-ASCII strings as
Python reads this repository copy, escaped for exactness). -/
def CHINESE_NAMES : List NameEntry :=
  [ ⟨"\u00e5\u00b0\u00e6\u02dc\u017d", "Xi\u00c7\u017do M\u00c3\u00adng", "Little Bright"⟩
  , ⟨"\u00e5\u00b0\u00e7\u00ba\u00a2", "Xi\u00c7\u017do H\u00c3\u00b3ng", "Little Red"⟩
  , ⟨"\u00e5\u00b0\u00e5\u017d", "Xi\u00c7\u017do Hu\u00c3\u00a1", "Little China"⟩
  , ⟨"\u00e5\u00b0\u00e9\u00be\u2122", "Xi\u00c7\u017do L\u00c3\u00b3ng", "Little Dragon"⟩
  , ⟨"\u00e5\u00b0\u00e7\u00be\u017d", "Xi\u00c7\u017do M\u00c4\u203ai", "Little Beautiful"⟩
  , ⟨"\u00e5\u00a4\u00a7\u00e5\u00ab", "D\u00c3\u00a0 W\u00c3\u00a8i", "David"⟩
  , ⟨"\u00e5\u00ae\u2030\u00e5\u00a8\u0153", "\u00c4\u20acn N\u00c3\u00a0", "Anna"⟩
  , ⟨"\u00e6\u00b0\u00e5\u2026\u2039", "Ji\u00c3\u00a9 K\u00c3\u00a8", "Jack"⟩
  , ⟨"\u00e4\u00b8\u00bd\u00e4\u00b8\u00bd", "L\u00c3\u00ac L\u00c3\u00ac", "Lily"⟩
  , ⟨"\u00e6\u02dc\u017d\u00e6\u02dc\u017d", "M\u00c3\u00adng M\u00c3\u00adng", "Bright"⟩
  , ⟨"\u00e5\u00a4\u00a9\u00e5\u00a4\u00a9", "Ti\u00c4n Ti\u00c4n", "Every Day"⟩
  , ⟨"\u00e4\u00b9\u00e4\u00b9", "L\u00c3\u00a8 L\u00c3\u00a8", "Happy"⟩ ]

/-- One extracted profile-name item (`extract_names` dict). -/
structure NameItem where
  text : String
  text_for_audio : String
  pinyin : String
  filename : String
deriving DecidableEq, Repr

/-- `extract_names`: the fixed-vocabulary items; the filename uses the
name verbatim: `name_{chinese}.mp3`. -/
def extract_names : List NameItem :=
  CHINESE_NAMES.map (fun n =>
    { text := n.chinese
      text_for_audio := n.chinese
      pinyin := n.pinyin
      filename := "name_" ++ n.chinese ++ ".mp3" })

/-! ## Engine adapters and environment -/

/-- A loaded engine session (the `model` local variable): a constructed
`CosyVoice(model_path, ...)` instance or a loaded `ChatTTS.Chat()`. -/
inductive Model
  | cosy (path : String)
  | chat
deriving DecidableEq, Repr

/-- Ambient environment of one run, fixed for its duration: which
optional dependencies import successfully, which filesystem paths exist
(for the CosyVoice model-artifact probe), and whether the external
`ffmpeg` transcoding call is available and succeeds. -/
structure LocalEnv where
  torchImportable : Bool
  cosyImportable : Bool
  chatImportable : Bool
  pathExists : String → Bool
  ffmpegOk : Bool

/-- The candidate CosyVoice model paths probed in order
(`model_paths` in `generate_cosyvoice`; the third is the
`os.path.expanduser` form). -/
def model_paths : List String :=
  [ "pretrained_models/CosyVoice-300M-SFT"
  , "../CosyVoice/pretrained_models/CosyVoice-300M-SFT"
  , "~/CosyVoice/pretrained_models/CosyVoice-300M-SFT" ]

/-- `for p in model_paths: if os.path.exists(p): model_path = p; break` -/
def findModelPath (ex : String → Bool) : Option String :=
  model_paths.find? ex

/-- `generate_cosyvoice(text, output_path, voice, model)`.

Returns the lines it prints (the "Loading CosyVoice model" notice)
paired with the outcome: `ok (model, content)` on success, where
`content` is what ends up at `output_path` (mp3 if the ffmpeg transcode
succeeds, otherwise the untranscoded wav renamed onto the `.mp3` path —
the `except (CalledProcessError, FileNotFoundError)` fallback, which
prints nothing), `error (exc ...)` for an ordinary exception (missing
`torch`, or the synthesis/save raising, abstracted by `raiseMsg`), and
`error (exit 1)` for the two `sys.exit(1)` calls (CosyVoice package not
importable; model artifact at no candidate path). -/
def generate_cosyvoice (text voice : String) (env : LocalEnv)
    (raiseMsg : Option String) (model : Option Model) :
    List LogEvent × Except Err (Model × Content) :=
  if env.torchImportable = false then
    ([], Except.error (Err.exc "No module named torch"))
  else
    match model with
    | some m =>
        match raiseMsg with
        | some msg => ([], Except.error (Err.exc msg))
        | none =>
            ([], Except.ok (m,
              Content.synth "cosyvoice" (if env.ffmpegOk then AudioFmt.mp3 else AudioFmt.wav)
                text (some voice)))
    | none =>
        if env.cosyImportable = false then
          ([], Except.error (Err.exit 1))
        else
          match findModelPath env.pathExists with
          | none => ([LogEvent.loadingModel], Except.error (Err.exit 1))
          | some path =>
              match raiseMsg with
              | some msg => ([LogEvent.loadingModel], Except.error (Err.exc msg))
              | none =>
                  ([LogEvent.loadingModel], Except.ok (Model.cosy path,
                    Content.synth "cosyvoice" (if env.ffmpegOk then AudioFmt.mp3 else AudioFmt.wav)
                      text (some voice)))

/-- `generate_chattts(text, output_path, model)`.

Same shape as `generate_cosyvoice`, except: the `import ChatTTS` is NOT
wrapped in try/except, so a missing ChatTTS dependency raises an
ordinary `ImportError` (an `Err.exc`, not a `sys.exit`); there is no
model-path probe; ChatTTS takes no voice. -/
def generate_chattts (text : String) (env : LocalEnv)
    (raiseMsg : Option String) (model : Option Model) :
    List LogEvent × Except Err (Model × Content) :=
  if env.torchImportable = false then
    ([], Except.error (Err.exc "No module named torch"))
  else
    match model with
    | some m =>
        match raiseMsg with
        | some msg => ([], Except.error (Err.exc msg))
        | none =>
            ([], Except.ok (m,
              Content.synth "chattts" (if env.ffmpegOk then AudioFmt.mp3 else AudioFmt.wav)
                text none))
    | none =>
        if env.chatImportable = false then
          ([], Except.error (Err.exc "No module named ChatTTS"))
        else
          match raiseMsg with
          | some msg => ([LogEvent.loadingModel], Except.error (Err.exc msg))
          | none =>
              ([LogEvent.loadingModel], Except.ok (Model.chat,
                Content.synth "chattts" (if env.ffmpegOk then AudioFmt.mp3 else AudioFmt.wav)
                  text none))

/-! ## Orchestrator loops -/

/-- State of the `generate_all_edge` loop. -/
structure EdgeState where
  store : Store
  generated : Nat
  skipped : Nat
  log : List LogEvent
deriving DecidableEq, Repr

/-- One iteration of the `generate_all_edge` for-loop over one item
(paired with its synthesis oracle: `none` if the awaited
`generate_edge_tts` call would succeed, `some msg` if it would raise an
`Exception` with that message — which the loop catches and logs). -/
def edgeStep (voice : String) (dryRun force : Bool)
    (st : EdgeState) (p : Item × Option String) : EdgeState :=
  if (lookupStore st.store p.1.filename).isSome = true ∧ force = false then
    { st with skipped := st.skipped + 1
              log := st.log ++ [LogEvent.skip p.1.filename] }
  else if dryRun = true then
    { st with log := st.log ++ [LogEvent.wouldGenerate p.1.filename p.1.text] }
  else
    match p.2 with
    | none =>
        { st with
          store := setStore st.store p.1.filename
                     (Content.synth "edge" AudioFmt.mp3 p.1.text_for_audio (some voice))
          generated := st.generated + 1
          log := st.log ++ [LogEvent.generating p.1.filename p.1.text_for_audio] }
    | some msg =>
        { st with
          log := st.log ++ [LogEvent.generating p.1.filename p.1.text_for_audio,
                            LogEvent.error msg] }

/-- `generate_all_edge(phrases, voice, dry_run, force)`: if `edge_tts`
does not import, print remediation and `sys.exit(1)`; otherwise fold the
per-item step over the items (strictly sequential awaits). -/
def generate_all_edge (edgeImportable : Bool) (voice : String)
    (dryRun force : Bool) (store : Store)
    (items : List (Item × Option String)) : Except Err EdgeState :=
  if edgeImportable = true then
    Except.ok (items.foldl (edgeStep voice dryRun force)
      (EdgeState.mk store 0 0 []))
  else
    Except.error (Err.exit 1)

/-- Which local engine `generate_all_local` dispatches on (the argparse
choices other than `edge`). -/
inductive LocalEngine
  | cosyvoice
  | chattts
deriving DecidableEq, Repr

/-- State of the `generate_all_local` loop: the run state plus the
lazily created engine session variable `model` (starts `None`). -/
structure LocalState where
  store : Store
  generated : Nat
  skipped : Nat
  log : List LogEvent
  model : Option Model
deriving DecidableEq, Repr

/-- Dispatch on the `--engine` choice inside the loop body
(`if engine == 'cosyvoice': ... elif engine == 'chattts': ...`). -/
def localCall (engine : LocalEngine) (voice : String) (env : LocalEnv)
    (p : Item × Option String) (model : Option Model) :
    List LogEvent × Except Err (Model × Content) :=
  match engine with
  | LocalEngine.cosyvoice => generate_cosyvoice p.1.text_for_audio voice env p.2 model
  | LocalEngine.chattts => generate_chattts p.1.text_for_audio env p.2 model

/-- One iteration of the `generate_all_local` for-loop.  The engine call
result is matched as Python's try/except does: an ordinary `Exception`
(`Err.exc`) is caught, logged, and the loop continues with `model`
UNCHANGED (the assignment `model = generate_...(...)` never ran);
a `SystemExit` (`Err.exit`, from `sys.exit(1)`) is NOT caught and
aborts the whole loop. -/
def localStep (engine : LocalEngine) (voice : String) (env : LocalEnv)
    (dryRun force : Bool) (st : LocalState) (p : Item × Option String) :
    Except Err LocalState :=
  if (lookupStore st.store p.1.filename).isSome = true ∧ force = false then
    Except.ok { st with skipped := st.skipped + 1
                        log := st.log ++ [LogEvent.skip p.1.filename] }
  else if dryRun = true then
    Except.ok { st with log := st.log ++ [LogEvent.wouldGenerate p.1.filename p.1.text] }
  else
    let call := localCall engine voice env p st.model
    let baseLog := st.log ++ [LogEvent.generating p.1.filename p.1.text_for_audio] ++ call.1
    match call.2 with
    | Except.ok mc =>
        Except.ok { st with
          store := setStore st.store p.1.filename mc.2
          generated := st.generated + 1
          log := baseLog
          model := some mc.1 }
    | Except.error (Err.exc msg) =>
        Except.ok { st with log := baseLog ++ [LogEvent.error msg] }
    | Except.error (Err.exit c) => Except.error (Err.exit c)

/-- The `generate_all_local` for-loop from a given state. -/
def localLoop (engine : LocalEngine) (voice : String) (env : LocalEnv)
    (dryRun force : Bool) :
    LocalState → List (Item × Option String) → Except Err LocalState
  | st, [] => Except.ok st
  | st, p :: ps =>
      match localStep engine voice env dryRun force st p with
      | Except.ok st' => localLoop engine voice env dryRun force st' ps
      | Except.error e => Except.error e

/-- `generate_all_local(phrases, engine, voice, dry_run, force)`:
start with `generated, skipped = 0, 0` and `model = None` and loop. -/
def generate_all_local (engine : LocalEngine) (voice : String) (env : LocalEnv)
    (dryRun force : Bool) (store : Store)
    (items : List (Item × Option String)) : Except Err LocalState :=
  localLoop engine voice env dryRun force (LocalState.mk store 0 0 [] none) items

/-- The `main()` generation path for the default edge engine: extract
the phrases (fatal `sys.exit(1)` if the curriculum file is missing),
append the fixed-name items, and run `generate_all_edge`.  `synthErr`
is the per-filename synthesis oracle. -/
def runPipeline (sourceContent : Option String) (edgeImportable : Bool)
    (voice : String) (dryRun force : Bool) (store : Store)
    (synthErr : String → Option String) : Except Err EdgeState :=
  match extract_phrases sourceContent with
  | Except.error e => Except.error e
  | Except.ok phrases =>
      let items :=
        phrases.map (fun p => Item.mk p.text p.text_for_audio p.filename)
          ++ extract_names.map (fun n => Item.mk n.text n.text_for_audio n.filename)
      generate_all_edge edgeImportable voice dryRun force store
        (items.map (fun it => (it, synthErr it.filename)))

/-! ## C4: the extraction scenario -/

/-- The C4 scenario source document: two "speaking" blocks, the first
with phrases U+4F60U+597D and U+518DU+89C1, the second with
U+8C22U+8C22 (braces escaped). -/
def scenarioDoc : String :=
  "\x7b type: \"speaking\", phrases: [ \x7b characters: \"你好\" \x7d, \x7b characters: \"再见\" \x7d ] \x7d, \x7b type: \"speaking\", phrases: [ \x7b characters: \"谢谢\" \x7d ] \x7d"

/-- **C4 — counterexample.**  The claim asserts the contract
`filename(scope, ordinal) = "scope{scope}_speaking_phrase{ordinal}.mp3"`
and in particular that the scenario's first item is named
`scope1_speaking_phrase0.mp3`.  On the code the filename template is
`day{scope}_speaking_phrase{ordinal}.mp3` (line 110 of
`generate-audio.py`), so the extracted filenames are
`day1_speaking_phrase0.mp3`, `day1_speaking_phrase1.mp3`,
`day2_speaking_phrase0.mp3` — none of them equal to the claimed names. -/
theorem c4_counterexample :
    (extractPhrasesFrom scenarioDoc).map Phrase.filename
        = ["day1_speaking_phrase0.mp3", "day1_speaking_phrase1.mp3",
           "day2_speaking_phrase0.mp3"]
      ∧ ¬ (extractPhrasesFrom scenarioDoc).map Phrase.filename
        = ["scope1_speaking_phrase0.mp3", "scope1_speaking_phrase1.mp3",
           "scope2_speaking_phrase0.mp3"] := by
  constructor
  · decide
  · decide

/-- **C4 — amended.**  For the scenario document with two "speaking"
blocks (phrases U+4F60U+597D, U+518DU+89C1 in the first and
U+8C22U+8C22 in the second), extraction yields exactly three items in
order with (scope, ordinal) = (1,0), (1,1), (2,0) — scopes numbered
1-based by block scan order, ordinals 0-based within the block — whose
filenames follow the code's contract
`filename(scope, ordinal) = "day{scope}_speaking_phrase{ordinal}.mp3"`
(not `scope{scope}_...` as the claim stated); and every
fixed-vocabulary name item gets `filename(name) = "name_{name}.mp3"`
with the name string used verbatim. -/
theorem c4_extraction_scenario :
    extractPhrasesFrom scenarioDoc =
      [ Phrase.mk 1 0 "\u4f60\u597d" "\u4f60\u597d" "day1_speaking_phrase0.mp3"
      , Phrase.mk 1 1 "\u518d\u89c1" "\u518d\u89c1" "day1_speaking_phrase1.mp3"
      , Phrase.mk 2 0 "\u8c22\u8c22" "\u8c22\u8c22" "day2_speaking_phrase0.mp3" ]
    ∧ extract_names.map NameItem.filename =
      CHINESE_NAMES.map (fun n => "name_" ++ n.chinese ++ ".mp3")
    ∧ extract_names.map NameItem.filename =
      [ "name_\u00e5\u00b0\u00e6\u02dc\u017d.mp3"
      , "name_\u00e5\u00b0\u00e7\u00ba\u00a2.mp3"
      , "name_\u00e5\u00b0\u00e5\u017d.mp3"
      , "name_\u00e5\u00b0\u00e9\u00be\u2122.mp3"
      , "name_\u00e5\u00b0\u00e7\u00be\u017d.mp3"
      , "name_\u00e5\u00a4\u00a7\u00e5\u00ab.mp3"
      , "name_\u00e5\u00ae\u2030\u00e5\u00a8\u0153.mp3"
      , "name_\u00e6\u00b0\u00e5\u2026\u2039.mp3"
      , "name_\u00e4\u00b8\u00bd\u00e4\u00b8\u00bd.mp3"
      , "name_\u00e6\u02dc\u017d\u00e6\u02dc\u017d.mp3"
      , "name_\u00e5\u00a4\u00a9\u00e5\u00a4\u00a9.mp3"
      , "name_\u00e4\u00b9\u00e4\u00b9.mp3" ] := by
  refine ⟨by decide, by decide, by decide⟩

/-! ## C7: placeholder substitution lemmas -/

/-- If the pattern occurs nowhere in `s` (at no position), `replace`
copies `s` unchanged. -/
theorem pyReplace_eq_self (p r : List Char) :
    ∀ s : List Char, (∀ i, ¬ p <+: List.drop i s) → pyReplace p r s = s := by
  intro s
  induction s with
  | nil => intro _; exact pyReplace_nil p r
  | cons c cs ih =>
      intro h
      have hnot : ¬ (p ≠ [] ∧ p.isPrefixOf (c :: cs) = true) := by
        rintro ⟨-, hpre⟩
        exact h 0 (by simpa using (List.isPrefixOf_iff_prefix.mp hpre))
      rw [pyReplace_cons_neg p r c cs hnot, ih]
      intro i hi
      exact h (i + 1) (by simpa [List.drop_succ_cons] using hi)

/-- Span lemma: a nonempty word sharing no character with the
replacement `r` that is a prefix of `pyReplace p r s` is already a
prefix of `s` (it cannot start inside an inserted copy of `r`). -/
theorem prefix_of_prefix_pyReplace (p r : List Char) (hr : r ≠ []) :
    ∀ (s q : List Char), q ≠ [] → (∀ a ∈ q, a ∉ r) →
      q <+: pyReplace p r s → q <+: s := by
  intro s
  induction s with
  | nil =>
      intro q hq _ hpre
      rw [pyReplace_nil] at hpre
      exact absurd (List.prefix_nil.mp hpre) hq
  | cons c cs ih =>
      intro q hq hdisj hpre
      by_cases hcond : p ≠ [] ∧ p.isPrefixOf (c :: cs) = true
      · rw [pyReplace_cons_pos p r c cs hcond.1 hcond.2] at hpre
        obtain ⟨q0, q', rfl⟩ : ∃ q0 q', q = q0 :: q' := by
          cases q with
          | nil => exact absurd rfl hq
          | cons q0 q' => exact ⟨q0, q', rfl⟩
        obtain ⟨r0, r', rfl⟩ : ∃ r0 r', r = r0 :: r' := by
          cases r with
          | nil => exact absurd rfl hr
          | cons r0 r' => exact ⟨r0, r', rfl⟩
        have h0 : q0 = r0 := (List.cons_prefix_cons.mp (by simpa using hpre)).1
        exact absurd (h0 ▸ List.mem_cons_self r0 r')
          (hdisj q0 (List.mem_cons_self q0 q'))
      · rw [pyReplace_cons_neg p r c cs hcond] at hpre
        obtain ⟨q0, q', rfl⟩ : ∃ q0 q', q = q0 :: q' := by
          cases q with
          | nil => exact absurd rfl hq
          | cons q0 q' => exact ⟨q0, q', rfl⟩
        obtain ⟨h0, htail⟩ := List.cons_prefix_cons.mp hpre
        cases q' with
        | nil => exact List.cons_prefix_cons.mpr ⟨h0, List.nil_prefix⟩
        | cons q1 q'' =>
            have : (q1 :: q'') <+: cs :=
              ih (q1 :: q'') (by simp)
                (fun a ha => hdisj a (List.mem_cons_of_mem _ ha)) htail
            exact List.cons_prefix_cons.mpr ⟨h0, this⟩

/-- After `pyReplace p r s` there is no occurrence of `p` left, provided
`p` and `r` are nonempty and share no character (true of the reserved
token and the fixed name). -/
theorem pyReplace_no_occurrence (p r : List Char) (hp : p ≠ []) (hr : r ≠ [])
    (hdisj : ∀ a ∈ p, a ∉ r) :
    ∀ (n : Nat) (s : List Char), s.length ≤ n →
      ∀ i, ¬ p <+: List.drop i (pyReplace p r s) := by
  intro n
  induction n with
  | zero =>
      intro s hs i hpre
      have : s = [] := List.eq_nil_of_length_eq_zero (Nat.le_zero.mp hs)
      subst this
      rw [pyReplace_nil, List.drop_nil] at hpre
      exact hp (List.prefix_nil.mp hpre)
  | succ n ih =>
      intro s hs i hpre
      cases s with
      | nil =>
          rw [pyReplace_nil, List.drop_nil] at hpre
          exact hp (List.prefix_nil.mp hpre)
      | cons c cs =>
          by_cases hcond : p ≠ [] ∧ p.isPrefixOf (c :: cs) = true
          · rw [pyReplace_cons_pos p r c cs hcond.1 hcond.2,
              List.drop_append_eq_append_drop] at hpre
            by_cases hir : i < r.length
            · have hne : List.drop i r ≠ [] := by
                intro hnil
                have := List.drop_eq_nil_iff.mp hnil
                omega
              obtain ⟨p0, p', rfl⟩ : ∃ p0 p', p = p0 :: p' := by
                cases p with
                | nil => exact absurd rfl hp
                | cons p0 p' => exact ⟨p0, p', rfl⟩
              obtain ⟨d0, d', hd⟩ : ∃ d0 d', List.drop i r = d0 :: d' := by
                cases hdrop : List.drop i r with
                | nil => exact absurd hdrop hne
                | cons d0 d' => exact ⟨d0, d', rfl⟩
              rw [hd] at hpre
              have h0 : p0 = d0 := (List.cons_prefix_cons.mp (by simpa using hpre)).1
              have hdmem : d0 ∈ r := List.drop_subset i r (hd ▸ List.mem_cons_self d0 d')
              exact hdisj p0 (List.mem_cons_self p0 p') (h0 ▸ hdmem)
            · rw [List.drop_eq_nil_of_le (Nat.le_of_not_lt hir), List.nil_append] at hpre
              have hlen : (List.drop (p.length - 1) cs).length ≤ n := by
                have := List.length_drop (p.length - 1) cs
                simp only [List.length_cons] at hs
                omega
              exact ih _ hlen _ hpre
          · rw [pyReplace_cons_neg p r c cs hcond] at hpre
            cases i with
            | succ j =>
                rw [List.drop_succ_cons] at hpre
                have hlen : cs.length ≤ n := by
                  simp only [List.length_cons] at hs; omega
                exact ih cs hlen j hpre
            | zero =>
                rw [List.drop_zero] at hpre
                obtain ⟨p0, p', rfl⟩ : ∃ p0 p', p = p0 :: p' := by
                  cases p with
                  | nil => exact absurd rfl hp
                  | cons p0 p' => exact ⟨p0, p', rfl⟩
                obtain ⟨h0, htail⟩ := List.cons_prefix_cons.mp hpre
                cases p' with
                | nil =>
                    exact hcond ⟨hp, List.isPrefixOf_iff_prefix.mpr
                      (List.cons_prefix_cons.mpr ⟨h0, List.nil_prefix⟩)⟩
                | cons p1 p'' =>
                    have hq : (p1 :: p'') <+: cs :=
                      prefix_of_prefix_pyReplace (p0 :: p1 :: p'') r hr cs (p1 :: p'') (by simp)
                        (fun a ha => hdisj a (List.mem_cons_of_mem _ ha)) htail
                    exact hcond ⟨hp, List.isPrefixOf_iff_prefix.mpr
                      (List.cons_prefix_cons.mpr ⟨h0, hq⟩)⟩

/-- Idempotence of Python `replace` when pattern and replacement are
nonempty and character-disjoint. -/
theorem pyReplace_idempotent (p r : List Char) (hp : p ≠ []) (hr : r ≠ [])
    (hdisj : ∀ a ∈ p, a ∉ r) (s : List Char) :
    pyReplace p r (pyReplace p r s) = pyReplace p r s :=
  pyReplace_eq_self p r _
    (fun i => pyReplace_no_occurrence p r hp hr hdisj s.length s (Nat.le_refl _) i)

/-- Every extracted phrase stores the raw capture as `text` and
`substituteName` of that same unchanged text as `text_for_audio`. -/
theorem extract_text_for_audio (doc : String) :
    ∀ it ∈ extractPhrasesFrom doc, it.text_for_audio = substituteName it.text := by
  intro it hit
  simp only [extractPhrasesFrom, List.mem_flatten, List.mem_map] at hit
  obtain ⟨l, ⟨bi, hbi, rfl⟩, hitl⟩ := hit
  simp only [List.mem_map] at hitl
  obtain ⟨ci, hci, rfl⟩ := hitl
  rfl

/-- **C7.**  Placeholder substitution is a pure stateless function: every
extracted item's `text_for_audio` (synthesisText) equals `substituteName`
applied to its `text` (displayText), which itself is stored as the raw
unchanged capture; on the spec's example the token is replaced by the one
fixed proper name; and the substitution is idempotent — re-applying it is
a no-op because, pattern and replacement sharing no character, the token
no longer appears in the output. -/
theorem c7_substitution :
    (∀ s : String, substituteName (substituteName s) = substituteName s)
    ∧ substituteName "\x7b\x7bNAME\x7d\x7d 你好" = fixedName ++ " 你好"
    ∧ (∀ doc : String, ∀ it ∈ extractPhrasesFrom doc,
        it.text_for_audio = substituteName it.text) := by
  refine ⟨?_, by decide, fun doc => extract_text_for_audio doc⟩
  intro s
  have h := pyReplace_idempotent nameToken.data fixedName.data
    (by decide) (by decide) (by decide) s.data
  simpa [substituteName] using congrArg String.mk h

/-- Witness for C7 at concrete inputs. -/
theorem c7_substitution_witness :
    substituteName (substituteName "ab\x7b\x7bNAME\x7d\x7dc")
        = substituteName "ab\x7b\x7bNAME\x7d\x7dc"
    ∧ Phrase.mk 1 0 "你好" "你好" "day1_speaking_phrase0.mp3"
        ∈ extractPhrasesFrom scenarioDoc
    ∧ (Phrase.mk 1 0 "你好" "你好"
        "day1_speaking_phrase0.mp3").text_for_audio
        = substituteName (Phrase.mk 1 0 "你好" "你好"
            "day1_speaking_phrase0.mp3").text :=
  ⟨c7_substitution.1 "ab\x7b\x7bNAME\x7d\x7dc", by decide,
    c7_substitution.2.2 scenarioDoc _ (by decide)⟩

/-! ## Asset Store lemmas -/

theorem lookupStore_set_self (s : Store) (k : String) (v : Content) :
    lookupStore (setStore s k v) k = some v := by
  induction s with
  | nil => simp [setStore, lookupStore]
  | cons kv rest ih =>
      by_cases h : kv.1 = k
      · simp [setStore, h, lookupStore]
      · simp [setStore, h, lookupStore, ih]

theorem lookupStore_set_ne (s : Store) (k k' : String) (v : Content)
    (h : k' ≠ k) : lookupStore (setStore s k v) k' = lookupStore s k' := by
  have hkk : ¬ k = k' := fun hh => h hh.symm
  induction s with
  | nil => simp [setStore, lookupStore, hkk]
  | cons kv rest ih =>
      obtain ⟨k1, v1⟩ := kv
      by_cases hk : k1 = k
      · subst hk
        simp [setStore, lookupStore, hkk]
      · simp [setStore, hk, lookupStore, ih]

/-- Writing never removes a file: anything present stays present. -/
theorem lookupStore_set_isSome (s : Store) (k k' : String) (v : Content)
    (h : (lookupStore s k').isSome = true) :
    (lookupStore (setStore s k v) k').isSome = true := by
  by_cases hk : k' = k
  · subst hk; simp [lookupStore_set_self]
  · rw [lookupStore_set_ne s k k' v hk]; exact h

/-! ## Edge loop: dry-run characterization -/

/-- With `dry_run` on, the edge loop only prints: the store, generated
count and model of the state are untouched; each item contributes one
`[skip]` line (asset present and force off) or one `[would generate]`
line, and is counted in `skipped` exactly in the former case. -/
theorem edge_dry_fields (voice : String) (force : Bool) :
    ∀ (items : List (Item × Option String)) (st : EdgeState),
      List.foldl (edgeStep voice true force) st items =
        EdgeState.mk st.store st.generated
          (st.skipped + (items.filter (fun p =>
              (lookupStore st.store p.1.filename).isSome && !force)).length)
          (st.log ++ items.map (fun p =>
              if (lookupStore st.store p.1.filename).isSome && !force then
                LogEvent.skip p.1.filename
              else LogEvent.wouldGenerate p.1.filename p.1.text)) := by
  intro items
  induction items with
  | nil => intro st; simp
  | cons p ps ih =>
      intro st
      rw [List.foldl_cons]
      by_cases hb : ((lookupStore st.store p.1.filename).isSome && !force) = true
      · have hc : (lookupStore st.store p.1.filename).isSome = true ∧ force = false := by
          simpa [Bool.and_eq_true, Bool.not_eq_true'] using hb
        have hstep : edgeStep voice true force st p =
            EdgeState.mk st.store st.generated (st.skipped + 1)
              (st.log ++ [LogEvent.skip p.1.filename]) := by
          simp only [edgeStep, if_pos hc]
        rw [hstep, ih]
        simp [List.filter_cons, hb, hc.1, hc.2, Nat.add_assoc, Nat.add_comm 1]
      · have hc : ¬ ((lookupStore st.store p.1.filename).isSome = true ∧ force = false) := by
          rintro ⟨h1, h2⟩
          simp [h1, h2] at hb
        have hstep : edgeStep voice true force st p =
            EdgeState.mk st.store st.generated st.skipped
              (st.log ++ [LogEvent.wouldGenerate p.1.filename p.1.text]) := by
          simp [edgeStep, hc]
        rw [hstep, ih]
        simp [List.filter_cons, hb, hc]

/-! ## Local loop: step case lemmas -/

theorem localStep_skip_case (engine : LocalEngine) (voice : String) (env : LocalEnv)
    (d f : Bool) (st : LocalState) (p : Item × Option String)
    (hc : (lookupStore st.store p.1.filename).isSome = true ∧ f = false) :
    localStep engine voice env d f st p =
      Except.ok (LocalState.mk st.store st.generated (st.skipped + 1)
        (st.log ++ [LogEvent.skip p.1.filename]) st.model) := by
  simp only [localStep, if_pos hc]

theorem localStep_dry_case (engine : LocalEngine) (voice : String) (env : LocalEnv)
    (f : Bool) (st : LocalState) (p : Item × Option String)
    (hc : ¬ ((lookupStore st.store p.1.filename).isSome = true ∧ f = false)) :
    localStep engine voice env true f st p =
      Except.ok (LocalState.mk st.store st.generated st.skipped
        (st.log ++ [LogEvent.wouldGenerate p.1.filename p.1.text]) st.model) := by
  simp [localStep, hc]

theorem localStep_gen_ok (engine : LocalEngine) (voice : String) (env : LocalEnv)
    (f : Bool) (st : LocalState) (p : Item × Option String)
    (glog : List LogEvent) (m : Model) (content : Content)
    (hc : ¬ ((lookupStore st.store p.1.filename).isSome = true ∧ f = false))
    (hcall : localCall engine voice env p st.model = (glog, Except.ok (m, content))) :
    localStep engine voice env false f st p =
      Except.ok (LocalState.mk (setStore st.store p.1.filename content)
        (st.generated + 1) st.skipped
        (st.log ++ [LogEvent.generating p.1.filename p.1.text_for_audio] ++ glog)
        (some m)) := by
  simp [localStep, hc, hcall]

theorem localStep_gen_exc (engine : LocalEngine) (voice : String) (env : LocalEnv)
    (f : Bool) (st : LocalState) (p : Item × Option String)
    (glog : List LogEvent) (msg : String)
    (hc : ¬ ((lookupStore st.store p.1.filename).isSome = true ∧ f = false))
    (hcall : localCall engine voice env p st.model = (glog, Except.error (Err.exc msg))) :
    localStep engine voice env false f st p =
      Except.ok (LocalState.mk st.store st.generated st.skipped
        (st.log ++ [LogEvent.generating p.1.filename p.1.text_for_audio] ++ glog
          ++ [LogEvent.error msg])
        st.model) := by
  simp [localStep, hc, hcall]

theorem localStep_gen_exit (engine : LocalEngine) (voice : String) (env : LocalEnv)
    (f : Bool) (st : LocalState) (p : Item × Option String)
    (glog : List LogEvent) (c : Nat)
    (hc : ¬ ((lookupStore st.store p.1.filename).isSome = true ∧ f = false))
    (hcall : localCall engine voice env p st.model = (glog, Except.error (Err.exit c))) :
    localStep engine voice env false f st p = Except.error (Err.exit c) := by
  simp [localStep, hc, hcall]

/-! ## Local loop: engine call classification -/

/-- The engine's name string as recorded in produced content. -/
def localEngineName : LocalEngine → String
  | LocalEngine.cosyvoice => "cosyvoice"
  | LocalEngine.chattts => "chattts"

/-- The voice recorded in produced content (ChatTTS takes no voice). -/
def localVoiceOpt : LocalEngine → String → Option String
  | LocalEngine.cosyvoice, voice => some voice
  | LocalEngine.chattts, _ => none

/-- Environment preconditions under which the selected local engine can
always construct its session: `torch` imports, and for CosyVoice the
package imports and some candidate model path exists, for ChatTTS the
package imports. -/
def envOkFor (engine : LocalEngine) (env : LocalEnv) : Prop :=
  env.torchImportable = true
  ∧ (engine = LocalEngine.cosyvoice →
      env.cosyImportable = true ∧ (findModelPath env.pathExists).isSome = true)
  ∧ (engine = LocalEngine.chattts → env.chatImportable = true)

/-- Under `envOkFor`, a call whose synthesis oracle raises returns the
caught exception; the "Loading" notice is printed exactly when the
session had to be (re)constructed (`model = none`). -/
theorem localCall_exc (engine : LocalEngine) (voice : String) (env : LocalEnv)
    (p : Item × Option String) (model : Option Model) (msg : String)
    (henv : envOkFor engine env) (h : p.2 = some msg) :
    localCall engine voice env p model =
      ((if model = none then [LogEvent.loadingModel] else []),
       Except.error (Err.exc msg)) := by
  obtain ⟨htorch, hcosy, hchat⟩ := henv
  cases engine with
  | cosyvoice =>
      obtain ⟨himp, hpath⟩ := hcosy rfl
      obtain ⟨path, hfind⟩ := Option.isSome_iff_exists.mp hpath
      cases model with
      | none => simp [localCall, generate_cosyvoice, htorch, himp, hfind, h]
      | some m => simp [localCall, generate_cosyvoice, htorch, h]
  | chattts =>
      have himp := hchat rfl
      cases model with
      | none => simp [localCall, generate_chattts, htorch, himp, h]
      | some m => simp [localCall, generate_chattts, htorch, h]

/-- The session the call returns: the one passed in, or the freshly
constructed one (for CosyVoice, loaded from the first existing
candidate path). -/
def sessionAfter (engine : LocalEngine) (env : LocalEnv) (model : Option Model) : Model :=
  match model with
  | some m => m
  | none =>
      match engine with
      | LocalEngine.cosyvoice => Model.cosy ((findModelPath env.pathExists).getD "")
      | LocalEngine.chattts => Model.chat

/-- Under `envOkFor`, a call whose synthesis oracle succeeds returns a
session and the synthesized content (mp3 if ffmpeg transcodes, wav
fallback otherwise), printing the "Loading" notice exactly when the
session had to be constructed. -/
theorem localCall_ok (engine : LocalEngine) (voice : String) (env : LocalEnv)
    (p : Item × Option String) (model : Option Model)
    (henv : envOkFor engine env) (h : p.2 = none) :
    localCall engine voice env p model =
      ((if model = none then [LogEvent.loadingModel] else []),
       Except.ok (sessionAfter engine env model, Content.synth (localEngineName engine)
         (if env.ffmpegOk then AudioFmt.mp3 else AudioFmt.wav)
         p.1.text_for_audio (localVoiceOpt engine voice))) := by
  obtain ⟨htorch, hcosy, hchat⟩ := henv
  cases engine with
  | cosyvoice =>
      obtain ⟨himp, hpath⟩ := hcosy rfl
      obtain ⟨path, hfind⟩ := Option.isSome_iff_exists.mp hpath
      cases model with
      | none =>
          simp [localCall, generate_cosyvoice, htorch, himp, hfind, h,
            localEngineName, localVoiceOpt, sessionAfter]
      | some m =>
          simp [localCall, generate_cosyvoice, htorch, h,
            localEngineName, localVoiceOpt, sessionAfter]
  | chattts =>
      have himp := hchat rfl
      cases model with
      | none =>
          simp [localCall, generate_chattts, htorch, himp, h,
            localEngineName, localVoiceOpt, sessionAfter]
      | some m =>
          simp [localCall, generate_chattts, htorch, h,
            localEngineName, localVoiceOpt, sessionAfter]

/-- A local engine call aborts with `SystemExit` only for the CosyVoice
engine, only while the session is still unconstructed, with exit code 1,
with `torch` importable, and only because the CosyVoice package is not
importable or no candidate model path exists.  (A missing ChatTTS
dependency is an ordinary `ImportError` and never exits.) -/
theorem localCall_fatal_shape (engine : LocalEngine) (voice : String) (env : LocalEnv)
    (p : Item × Option String) (model : Option Model)
    (glog : List LogEvent) (e : Err)
    (h : localCall engine voice env p model = (glog, Except.error e)) :
    (∃ msg, e = Err.exc msg)
    ∨ (e = Err.exit 1 ∧ engine = LocalEngine.cosyvoice ∧ model = none
        ∧ env.torchImportable = true
        ∧ (env.cosyImportable = false ∨ findModelPath env.pathExists = none)) := by
  cases engine with
  | cosyvoice =>
      by_cases htorch : env.torchImportable = false
      · simp [localCall, generate_cosyvoice, htorch] at h
        exact Or.inl ⟨_, h.2.symm⟩
      · have htorch' : env.torchImportable = true := by
          cases hx : env.torchImportable
          · exact absurd hx htorch
          · rfl
        cases model with
        | some m =>
            cases hmsg : p.2 with
            | none => simp [localCall, generate_cosyvoice, htorch', hmsg] at h
            | some msg =>
                simp [localCall, generate_cosyvoice, htorch', hmsg] at h
                exact Or.inl ⟨msg, h.2.symm⟩
        | none =>
            by_cases himp : env.cosyImportable = false
            · simp [localCall, generate_cosyvoice, htorch', himp] at h
              exact Or.inr ⟨h.2.symm, rfl, rfl, htorch', Or.inl himp⟩
            · have himp' : env.cosyImportable = true := by
                cases hx : env.cosyImportable
                · exact absurd hx himp
                · rfl
              cases hfind : findModelPath env.pathExists with
              | none =>
                  simp [localCall, generate_cosyvoice, htorch', himp', hfind] at h
                  exact Or.inr ⟨h.2.symm, rfl, rfl, htorch', Or.inr rfl⟩
              | some path =>
                  cases hmsg : p.2 with
                  | none => simp [localCall, generate_cosyvoice, htorch', himp', hfind, hmsg] at h
                  | some msg =>
                      simp [localCall, generate_cosyvoice, htorch', himp', hfind, hmsg] at h
                      exact Or.inl ⟨msg, h.2.symm⟩
  | chattts =>
      by_cases htorch : env.torchImportable = false
      · simp [localCall, generate_chattts, htorch] at h
        exact Or.inl ⟨_, h.2.symm⟩
      · have htorch' : env.torchImportable = true := by
          cases hx : env.torchImportable
          · exact absurd hx htorch
          · rfl
        cases model with
        | some m =>
            cases hmsg : p.2 with
            | none => simp [localCall, generate_chattts, htorch', hmsg] at h
            | some msg =>
                simp [localCall, generate_chattts, htorch', hmsg] at h
                exact Or.inl ⟨msg, h.2.symm⟩
        | none =>
            by_cases himp : env.chatImportable = false
            · simp [localCall, generate_chattts, htorch', himp] at h
              exact Or.inl ⟨_, h.2.symm⟩
            · have himp' : env.chatImportable = true := by
                cases hx : env.chatImportable
                · exact absurd hx himp
                · rfl
              cases hmsg : p.2 with
              | none => simp [localCall, generate_chattts, htorch', himp', hmsg] at h
              | some msg =>
                  simp [localCall, generate_chattts, htorch', himp', hmsg] at h
                  exact Or.inl ⟨msg, h.2.symm⟩

/-! ## Local loop: step and loop shape lemmas -/

/-- A step can abort only via `sys.exit(1)` from an unconstructed
CosyVoice session (package missing or model artifact at no candidate
path); `except Exception` has caught everything else. -/
theorem localStep_fatal (engine : LocalEngine) (voice : String) (env : LocalEnv)
    (d f : Bool) (st : LocalState) (p : Item × Option String) (e : Err)
    (h : localStep engine voice env d f st p = Except.error e) :
    e = Err.exit 1 ∧ engine = LocalEngine.cosyvoice ∧ st.model = none
    ∧ env.torchImportable = true
    ∧ (env.cosyImportable = false ∨ findModelPath env.pathExists = none) := by
  by_cases hc : (lookupStore st.store p.1.filename).isSome = true ∧ f = false
  · rw [localStep_skip_case engine voice env d f st p hc] at h
    exact absurd h (by simp)
  · by_cases hd : d = true
    · subst hd
      rw [localStep_dry_case engine voice env f st p hc] at h
      exact absurd h (by simp)
    · have hd' : d = false := by
        cases d
        · rfl
        · exact absurd rfl hd
      subst hd'
      cases hcall : localCall engine voice env p st.model with
      | mk glog res =>
        cases res with
        | ok mc =>
            rw [localStep_gen_ok engine voice env f st p glog mc.1 mc.2 hc
              (by rw [hcall])] at h
            exact absurd h (by simp)
        | error err =>
            cases err with
            | exc msg =>
                rw [localStep_gen_exc engine voice env f st p glog msg hc hcall] at h
                exact absurd h (by simp)
            | exit c =>
                rw [localStep_gen_exit engine voice env f st p glog c hc hcall] at h
                have he : e = Err.exit c := by
                  injection h with h'
                  exact h'.symm
                subst he
                rcases localCall_fatal_shape engine voice env p st.model glog
                    (Err.exit c) hcall with ⟨msg, hmsg⟩ | hshape
                · exact absurd hmsg (by simp)
                · exact hshape

/-- Shape of any non-aborting step: files never disappear, nothing is
ever skipped under force, the log only grows, and a still-unconstructed
session after the step means it was unconstructed before and the step
created no asset. -/
theorem localStep_ok_shape (engine : LocalEngine) (voice : String) (env : LocalEnv)
    (d f : Bool) (st : LocalState) (p : Item × Option String) (st' : LocalState)
    (h : localStep engine voice env d f st p = Except.ok st') :
    (∀ k, (lookupStore st.store k).isSome = true →
        (lookupStore st'.store k).isSome = true)
    ∧ (f = true → st'.skipped = st.skipped)
    ∧ st.log <+: st'.log
    ∧ (st'.model = none →
        st.model = none ∧ st'.store = st.store ∧ st'.generated = st.generated) := by
  by_cases hc : (lookupStore st.store p.1.filename).isSome = true ∧ f = false
  · rw [localStep_skip_case engine voice env d f st p hc] at h
    injection h with h'
    subst h'
    refine ⟨fun k hk => hk, fun hf => absurd hc.2 (by simp [hf]), ?_, fun hm => ⟨hm, rfl, rfl⟩⟩
    exact List.prefix_append _ _
  · by_cases hd : d = true
    · subst hd
      rw [localStep_dry_case engine voice env f st p hc] at h
      injection h with h'
      subst h'
      exact ⟨fun k hk => hk, fun _ => rfl, List.prefix_append _ _, fun hm => ⟨hm, rfl, rfl⟩⟩
    · have hd' : d = false := by
        cases d
        · rfl
        · exact absurd rfl hd
      subst hd'
      cases hcall : localCall engine voice env p st.model with
      | mk glog res =>
        cases res with
        | ok mc =>
            rw [localStep_gen_ok engine voice env f st p glog mc.1 mc.2 hc
              (by rw [hcall])] at h
            injection h with h'
            subst h'
            refine ⟨fun k hk => lookupStore_set_isSome _ _ _ _ hk, fun _ => rfl,
              ?_, fun hm => absurd hm (by simp)⟩
            show st.log <+: st.log ++ [LogEvent.generating p.1.filename p.1.text_for_audio] ++ glog
            rw [List.append_assoc]
            exact List.prefix_append _ _
        | error err =>
            cases err with
            | exc msg =>
                rw [localStep_gen_exc engine voice env f st p glog msg hc hcall] at h
                injection h with h'
                subst h'
                refine ⟨fun k hk => hk, fun _ => rfl, ?_, fun hm => ⟨hm, rfl, rfl⟩⟩
                show st.log <+: st.log ++ [LogEvent.generating p.1.filename p.1.text_for_audio]
                    ++ glog ++ [LogEvent.error msg]
                rw [List.append_assoc, List.append_assoc]
                exact List.prefix_append _ _
            | exit c =>
                rw [localStep_gen_exit engine voice env f st p glog c hc hcall] at h
                exact absurd h (by simp)

/-- Loop lift of `localStep_ok_shape`. -/
theorem localLoop_ok_shape (engine : LocalEngine) (voice : String) (env : LocalEnv)
    (d f : Bool) :
    ∀ (items : List (Item × Option String)) (st st' : LocalState),
      localLoop engine voice env d f st items = Except.ok st' →
      (∀ k, (lookupStore st.store k).isSome = true →
          (lookupStore st'.store k).isSome = true)
      ∧ (f = true → st'.skipped = st.skipped)
      ∧ st.log <+: st'.log
      ∧ (st'.model = none →
          st.model = none ∧ st'.store = st.store ∧ st'.generated = st.generated) := by
  intro items
  induction items with
  | nil =>
      intro st st' h
      rw [localLoop] at h
      injection h with h'
      subst h'
      exact ⟨fun k hk => hk, fun _ => rfl, List.prefix_refl _, fun hm => ⟨hm, rfl, rfl⟩⟩
  | cons q ps ih =>
      intro st st' h
      rw [localLoop] at h
      cases hstep : localStep engine voice env d f st q with
      | error e => rw [hstep] at h; exact absurd h (by simp)
      | ok st1 =>
          rw [hstep] at h
          obtain ⟨mono1, skip1, log1, back1⟩ :=
            localStep_ok_shape engine voice env d f st q st1 hstep
          obtain ⟨mono2, skip2, log2, back2⟩ := ih st1 st' h
          refine ⟨fun k hk => mono2 k (mono1 k hk), ?_, log1.trans log2, ?_⟩
          · intro hf
            rw [skip2 hf, skip1 hf]
          · intro hm
            obtain ⟨hm1, hsto1, hgen1⟩ := back2 hm
            obtain ⟨hm0, hsto0, hgen0⟩ := back1 hm1
            exact ⟨hm0, hsto1.trans hsto0, hgen1.trans hgen0⟩

/-- Any abort of the local loop decomposes as: a prefix of items that
was processed without constructing a session or creating any asset,
then one item whose step raised `SystemExit`. -/
theorem localLoop_fatal (engine : LocalEngine) (voice : String) (env : LocalEnv)
    (d f : Bool) :
    ∀ (items : List (Item × Option String)) (st : LocalState) (e : Err),
      localLoop engine voice env d f st items = Except.error e →
      ∃ pre q rest stMid,
        items = pre ++ q :: rest
        ∧ localLoop engine voice env d f st pre = Except.ok stMid
        ∧ localStep engine voice env d f stMid q = Except.error e
        ∧ stMid.model = none ∧ st.model = none
        ∧ stMid.store = st.store ∧ stMid.generated = st.generated := by
  intro items
  induction items with
  | nil =>
      intro st e h
      rw [localLoop] at h
      exact absurd h (by simp)
  | cons q ps ih =>
      intro st e h
      rw [localLoop] at h
      cases hstep : localStep engine voice env d f st q with
      | error e' =>
          rw [hstep] at h
          injection h with h'
          subst h'
          obtain ⟨-, -, hmodel, -, -⟩ :=
            localStep_fatal engine voice env d f st q e' hstep
          exact ⟨[], q, ps, st, rfl, rfl, hstep, hmodel, hmodel, rfl, rfl⟩
      | ok st1 =>
          rw [hstep] at h
          obtain ⟨pre', q', rest, stMid, hdecomp, hpre, hfail, hmidm, hst1m, hsto, hgen⟩ :=
            ih st1 e h
          obtain ⟨hm0, hsto0, hgen0⟩ :=
            (localStep_ok_shape engine voice env d f st q st1 hstep).2.2.2 hst1m
          refine ⟨q :: pre', q', rest, stMid, by rw [hdecomp, List.cons_append], ?_,
            hfail, hmidm, hm0, hsto.trans hsto0, hgen.trans hgen0⟩
          rw [localLoop, hstep]
          exact hpre

/-! ## Local loop: dry-run characterization -/

/-- With `dry_run` on, the local loop only prints: store, counts other
than `skipped`, and the session are untouched; each item contributes one
`[skip]` line (asset present and force off) or one `[would generate]`
line. -/
theorem local_dry_fields (engine : LocalEngine) (voice : String) (env : LocalEnv)
    (force : Bool) :
    ∀ (items : List (Item × Option String)) (st : LocalState),
      localLoop engine voice env true force st items =
        Except.ok (LocalState.mk st.store st.generated
          (st.skipped + (items.filter (fun p =>
              (lookupStore st.store p.1.filename).isSome && !force)).length)
          (st.log ++ items.map (fun p =>
              if (lookupStore st.store p.1.filename).isSome && !force then
                LogEvent.skip p.1.filename
              else LogEvent.wouldGenerate p.1.filename p.1.text))
          st.model) := by
  intro items
  induction items with
  | nil => intro st; simp [localLoop]
  | cons p ps ih =>
      intro st
      rw [localLoop]
      by_cases hb : ((lookupStore st.store p.1.filename).isSome && !force) = true
      · have hc : (lookupStore st.store p.1.filename).isSome = true ∧ force = false := by
          simpa [Bool.and_eq_true, Bool.not_eq_true'] using hb
        rw [localStep_skip_case engine voice env true force st p hc]
        simp only [ih]
        simp [List.filter_cons, hb, hc.1, hc.2, Nat.add_assoc, Nat.add_comm 1]
      · have hc : ¬ ((lookupStore st.store p.1.filename).isSome = true ∧ force = false) := by
          rintro ⟨h1, h2⟩
          simp [h1, h2] at hb
        rw [localStep_dry_case engine voice env force st p hc]
        simp only [ih]
        simp [List.filter_cons, hb, hc]

/-! ## Edge loop: run characterization -/

/-- Booleans: failing the skip test means absent-or-forced. -/
theorem skipBool_false_iff (a f : Bool) (h : (a && !f) = false) :
    (!a || f) = true := by
  cases a <;> cases f <;> simp_all

/-- Characterization of a non-dry edge run over items with pairwise
distinct filenames: `generated` counts exactly the items that passed the
existence check (absent, or force on) and whose synthesis succeeded;
`skipped` counts exactly the items present with force off; the log only
grows; and every item that was attempted and raised contributes an
adjacent `[generating]`/`Error` pair to the log (so each failure is
reported with the item's identity, and later items are still
processed). -/
theorem edge_run_fields (voice : String) (force : Bool) :
    ∀ (items : List (Item × Option String)) (st : EdgeState),
      (items.map (fun p => p.1.filename)).Nodup →
      ((List.foldl (edgeStep voice false force) st items).generated
          = st.generated + (items.filter (fun p =>
              (!(lookupStore st.store p.1.filename).isSome || force) && p.2.isNone)).length)
      ∧ ((List.foldl (edgeStep voice false force) st items).skipped
          = st.skipped + (items.filter (fun p =>
              (lookupStore st.store p.1.filename).isSome && !force)).length)
      ∧ st.log <+: (List.foldl (edgeStep voice false force) st items).log
      ∧ (∀ p ∈ items, ∀ msg, p.2 = some msg →
          ((lookupStore st.store p.1.filename).isSome && !force) = false →
          [LogEvent.generating p.1.filename p.1.text_for_audio, LogEvent.error msg]
            <:+: (List.foldl (edgeStep voice false force) st items).log) := by
  intro items
  induction items with
  | nil =>
      intro st _
      refine ⟨by simp, by simp, List.prefix_refl _, by simp⟩
  | cons q ps ih =>
      intro st hnd
      rw [List.map_cons, List.nodup_cons] at hnd
      obtain ⟨hqnot, hnd'⟩ := hnd
      rw [List.foldl_cons]
      by_cases hb : ((lookupStore st.store q.1.filename).isSome && !force) = true
      · -- q is skipped
        have hc : (lookupStore st.store q.1.filename).isSome = true ∧ force = false := by
          simpa [Bool.and_eq_true, Bool.not_eq_true'] using hb
        have hstep : edgeStep voice false force st q =
            EdgeState.mk st.store st.generated (st.skipped + 1)
              (st.log ++ [LogEvent.skip q.1.filename]) := by
          simp only [edgeStep, if_pos hc]
        rw [hstep]
        obtain ⟨hgen, hskip, hlog, herr⟩ := ih
          (EdgeState.mk st.store st.generated (st.skipped + 1)
            (st.log ++ [LogEvent.skip q.1.filename])) hnd'
        refine ⟨?_, ?_, ?_, ?_⟩
        · rw [hgen]
          have hqg : ((!(lookupStore st.store q.1.filename).isSome || force) && q.2.isNone)
              = false := by
            simp [hc.1, hc.2]
          simp only [List.filter_cons, hqg]
          simp
        · rw [hskip]
          simp only [List.filter_cons, hb]
          simp [Nat.add_assoc, Nat.add_comm 1]
        · exact (List.prefix_append _ _).trans hlog
        · intro p hp msg hmsg hskipb
          rcases List.mem_cons.mp hp with rfl | hp'
          · rw [hskipb] at hb
            exact absurd hb (by simp)
          · exact herr p hp' msg hmsg hskipb
      · -- q passes the existence/force check
        have hc : ¬ ((lookupStore st.store q.1.filename).isSome = true ∧ force = false) := by
          rintro ⟨h1, h2⟩
          simp [h1, h2] at hb
        have hpass : (!(lookupStore st.store q.1.filename).isSome || force) = true :=
          skipBool_false_iff _ _ (by simpa using hb)
        cases hq2 : q.2 with
        | none =>
            -- generated
            have hstep : edgeStep voice false force st q =
                EdgeState.mk
                  (setStore st.store q.1.filename
                    (Content.synth "edge" AudioFmt.mp3 q.1.text_for_audio (some voice)))
                  (st.generated + 1) st.skipped
                  (st.log ++ [LogEvent.generating q.1.filename q.1.text_for_audio]) := by
              simp [edgeStep, hc, hq2]
            rw [hstep]
            set st1 := EdgeState.mk
              (setStore st.store q.1.filename
                (Content.synth "edge" AudioFmt.mp3 q.1.text_for_audio (some voice)))
              (st.generated + 1) st.skipped
              (st.log ++ [LogEvent.generating q.1.filename q.1.text_for_audio]) with hst1
            have hlook : ∀ p ∈ ps,
                lookupStore st1.store p.1.filename = lookupStore st.store p.1.filename := by
              intro p hp
              have hne : p.1.filename ≠ q.1.filename := by
                intro hEq
                exact hqnot (hEq ▸ List.mem_map_of_mem (fun r => r.1.filename) hp)
              exact lookupStore_set_ne st.store q.1.filename p.1.filename _ hne
            obtain ⟨hgen, hskip, hlog, herr⟩ := ih st1 hnd'
            refine ⟨?_, ?_, ?_, ?_⟩
            · rw [hgen]
              have hfilter :
                  ps.filter (fun p =>
                    (!(lookupStore st1.store p.1.filename).isSome || force) && p.2.isNone)
                    = ps.filter (fun p =>
                    (!(lookupStore st.store p.1.filename).isSome || force) && p.2.isNone) :=
                List.filter_congr (fun p hp => by rw [hlook p hp])
              rw [hfilter]
              have hqgen : ((!(lookupStore st.store q.1.filename).isSome || force)
                  && q.2.isNone) = true := by
                rw [hq2]
                simp only [Option.isNone_none, Bool.and_true]
                exact hpass
              simp only [List.filter_cons, hqgen]
              simp [Nat.add_assoc, Nat.add_comm 1]
            · rw [hskip]
              have hfilter :
                  ps.filter (fun p =>
                    (lookupStore st1.store p.1.filename).isSome && !force)
                    = ps.filter (fun p =>
                    (lookupStore st.store p.1.filename).isSome && !force) :=
                List.filter_congr (fun p hp => by rw [hlook p hp])
              rw [hfilter]
              have hbf : ((lookupStore st.store q.1.filename).isSome && !force) = false := by
                simpa using hb
              simp only [List.filter_cons, hbf]
              simp
            · exact (List.prefix_append _ _).trans hlog
            · intro p hp msg hmsg hskipb
              rcases List.mem_cons.mp hp with rfl | hp'
              · rw [hq2] at hmsg
                exact absurd hmsg (by simp)
              · exact herr p hp' msg hmsg (by rw [hlook p hp']; exact hskipb)
        | some msg0 =>
            -- attempted, synthesis raised, caught and logged
            have hstep : edgeStep voice false force st q =
                EdgeState.mk st.store st.generated st.skipped
                  (st.log ++ [LogEvent.generating q.1.filename q.1.text_for_audio,
                    LogEvent.error msg0]) := by
              simp [edgeStep, hc, hq2]
            rw [hstep]
            obtain ⟨hgen, hskip, hlog, herr⟩ := ih
              (EdgeState.mk st.store st.generated st.skipped
                (st.log ++ [LogEvent.generating q.1.filename q.1.text_for_audio,
                  LogEvent.error msg0])) hnd'
            refine ⟨?_, ?_, ?_, ?_⟩
            · rw [hgen]
              have hqg : ((!(lookupStore st.store q.1.filename).isSome || force)
                  && q.2.isNone) = false := by
                simp [hq2]
              simp only [List.filter_cons, hqg]
              simp
            · rw [hskip]
              have hbf : ((lookupStore st.store q.1.filename).isSome && !force) = false := by
                simpa using hb
              simp only [List.filter_cons, hbf]
              simp
            · exact (List.prefix_append _ _).trans hlog
            · intro p hp msg hmsg hskipb
              rcases List.mem_cons.mp hp with rfl | hp'
              · have hmsg' : msg = msg0 := by
                  rw [hq2] at hmsg
                  injection hmsg with h'
                  exact h'.symm
                subst hmsg'
                refine List.IsInfix.trans ?_ hlog.isInfix
                exact ⟨st.log, [], by simp⟩
              · exact herr p hp' msg hmsg hskipb

/-! ## Local loop: run characterization -/

/-- Characterization of a non-dry local-engine run over items with
pairwise distinct filenames, when the engine's environment
preconditions hold: the loop never aborts; `generated` counts exactly
the items that passed the existence check and whose synthesis
succeeded; `skipped` counts exactly the items present with force off;
the log only grows; and every attempted item that raised contributes a
`[generating]` line followed (possibly after the one-off "Loading"
notice) by its `Error` line. -/
theorem local_run_fields (engine : LocalEngine) (voice : String) (env : LocalEnv)
    (force : Bool) (henv : envOkFor engine env) :
    ∀ (items : List (Item × Option String)) (st : LocalState),
      (items.map (fun p => p.1.filename)).Nodup →
      ∃ st', localLoop engine voice env false force st items = Except.ok st'
        ∧ st'.generated = st.generated + (items.filter (fun p =>
            (!(lookupStore st.store p.1.filename).isSome || force) && p.2.isNone)).length
        ∧ st'.skipped = st.skipped + (items.filter (fun p =>
            (lookupStore st.store p.1.filename).isSome && !force)).length
        ∧ st.log <+: st'.log
        ∧ (∀ p ∈ items, ∀ msg, p.2 = some msg →
            ((lookupStore st.store p.1.filename).isSome && !force) = false →
            ∃ mid, (mid = [] ∨ mid = [LogEvent.loadingModel]) ∧
              ([LogEvent.generating p.1.filename p.1.text_for_audio] ++ mid
                ++ [LogEvent.error msg]) <:+: st'.log) := by
  intro items
  induction items with
  | nil =>
      intro st _
      exact ⟨st, rfl, by simp, by simp, List.prefix_refl _, by simp⟩
  | cons q ps ih =>
      intro st hnd
      rw [List.map_cons, List.nodup_cons] at hnd
      obtain ⟨hqnot, hnd'⟩ := hnd
      rw [localLoop]
      by_cases hb : ((lookupStore st.store q.1.filename).isSome && !force) = true
      · -- q is skipped
        have hc : (lookupStore st.store q.1.filename).isSome = true ∧ force = false := by
          simpa [Bool.and_eq_true, Bool.not_eq_true'] using hb
        rw [localStep_skip_case engine voice env false force st q hc]
        obtain ⟨st', hloop, hgen, hskip, hlog, herr⟩ := ih
          (LocalState.mk st.store st.generated (st.skipped + 1)
            (st.log ++ [LogEvent.skip q.1.filename]) st.model) hnd'
        refine ⟨st', hloop, ?_, ?_, ?_, ?_⟩
        · rw [hgen]
          have hqg : ((!(lookupStore st.store q.1.filename).isSome || force) && q.2.isNone)
              = false := by
            simp [hc.1, hc.2]
          simp only [List.filter_cons, hqg]
          simp
        · rw [hskip]
          simp only [List.filter_cons, hb]
          simp [Nat.add_assoc, Nat.add_comm 1]
        · exact (List.prefix_append _ _).trans hlog
        · intro p hp msg hmsg hskipb
          rcases List.mem_cons.mp hp with rfl | hp'
          · rw [hskipb] at hb
            exact absurd hb (by simp)
          · exact herr p hp' msg hmsg hskipb
      · -- q passes the existence/force check
        have hc : ¬ ((lookupStore st.store q.1.filename).isSome = true ∧ force = false) := by
          rintro ⟨h1, h2⟩
          simp [h1, h2] at hb
        have hpass : (!(lookupStore st.store q.1.filename).isSome || force) = true :=
          skipBool_false_iff _ _ (by simpa using hb)
        cases hq2 : q.2 with
        | some msg0 =>
            -- attempted, synthesis raised, caught and logged, model kept
            have hcall := localCall_exc engine voice env q st.model msg0 henv hq2
            rw [localStep_gen_exc engine voice env force st q _ msg0 hc hcall]
            set glog := (if st.model = none then [LogEvent.loadingModel] else [])
              with hglog
            obtain ⟨st', hloop, hgen, hskip, hlog, herr⟩ := ih
              (LocalState.mk st.store st.generated st.skipped
                (st.log ++ [LogEvent.generating q.1.filename q.1.text_for_audio] ++ glog
                  ++ [LogEvent.error msg0]) st.model) hnd'
            refine ⟨st', hloop, ?_, ?_, ?_, ?_⟩
            · rw [hgen]
              have hqg : ((!(lookupStore st.store q.1.filename).isSome || force)
                  && q.2.isNone) = false := by
                simp [hq2]
              simp only [List.filter_cons, hqg]
              simp
            · rw [hskip]
              have hbf : ((lookupStore st.store q.1.filename).isSome && !force) = false := by
                simpa using hb
              simp only [List.filter_cons, hbf]
              simp
            · refine List.IsPrefix.trans ?_ hlog
              show st.log <+: st.log ++ [LogEvent.generating q.1.filename q.1.text_for_audio]
                  ++ glog ++ [LogEvent.error msg0]
              rw [List.append_assoc, List.append_assoc]
              exact List.prefix_append _ _
            · intro p hp msg hmsg hskipb
              rcases List.mem_cons.mp hp with rfl | hp'
              · have hmsg' : msg = msg0 := by
                  rw [hq2] at hmsg
                  injection hmsg with h'
                  exact h'.symm
                subst hmsg'
                refine ⟨glog, ?_, ?_⟩
                · rw [hglog]
                  cases st.model <;> simp
                · refine List.IsInfix.trans ?_ hlog.isInfix
                  refine ⟨st.log, [], ?_⟩
                  simp
              · exact herr p hp' msg hmsg hskipb
        | none =>
            -- generated; model (re)constructed or reused
            have hcall := localCall_ok engine voice env q st.model henv hq2
            rw [localStep_gen_ok engine voice env force st q _
              (sessionAfter engine env st.model) _ hc hcall]
            set glog := (if st.model = none then [LogEvent.loadingModel] else [])
              with hglog
            set content := Content.synth (localEngineName engine)
              (if env.ffmpegOk then AudioFmt.mp3 else AudioFmt.wav)
              q.1.text_for_audio (localVoiceOpt engine voice) with hcontent
            set st1 := LocalState.mk (setStore st.store q.1.filename content)
              (st.generated + 1) st.skipped
              (st.log ++ [LogEvent.generating q.1.filename q.1.text_for_audio] ++ glog)
              (some (sessionAfter engine env st.model)) with hst1
            have hlook : ∀ p ∈ ps,
                lookupStore st1.store p.1.filename = lookupStore st.store p.1.filename := by
              intro p hp
              have hne : p.1.filename ≠ q.1.filename := by
                intro hEq
                exact hqnot (hEq ▸ List.mem_map_of_mem (fun r => r.1.filename) hp)
              exact lookupStore_set_ne st.store q.1.filename p.1.filename _ hne
            obtain ⟨st', hloop, hgen, hskip, hlog, herr⟩ := ih st1 hnd'
            refine ⟨st', hloop, ?_, ?_, ?_, ?_⟩
            · rw [hgen]
              have hfilter :
                  ps.filter (fun p =>
                    (!(lookupStore st1.store p.1.filename).isSome || force) && p.2.isNone)
                    = ps.filter (fun p =>
                    (!(lookupStore st.store p.1.filename).isSome || force) && p.2.isNone) :=
                List.filter_congr (fun p hp => by rw [hlook p hp])
              rw [hfilter]
              have hqgen : ((!(lookupStore st.store q.1.filename).isSome || force)
                  && q.2.isNone) = true := by
                rw [hq2]
                simp only [Option.isNone_none, Bool.and_true]
                exact hpass
              simp only [List.filter_cons, hqgen]
              simp [Nat.add_assoc, Nat.add_comm 1]
            · rw [hskip]
              have hfilter :
                  ps.filter (fun p =>
                    (lookupStore st1.store p.1.filename).isSome && !force)
                    = ps.filter (fun p =>
                    (lookupStore st.store p.1.filename).isSome && !force) :=
                List.filter_congr (fun p hp => by rw [hlook p hp])
              rw [hfilter]
              have hbf : ((lookupStore st.store q.1.filename).isSome && !force) = false := by
                simpa using hb
              simp only [List.filter_cons, hbf]
              simp
            · refine List.IsPrefix.trans ?_ hlog
              show st.log <+: st1.log
              rw [hst1]
              show st.log <+: st.log ++ [LogEvent.generating q.1.filename q.1.text_for_audio]
                  ++ glog
              rw [List.append_assoc]
              exact List.prefix_append _ _
            · intro p hp msg hmsg hskipb
              rcases List.mem_cons.mp hp with rfl | hp'
              · rw [hq2] at hmsg
                exact absurd hmsg (by simp)
              · exact herr p hp' msg hmsg (by rw [hlook p hp']; exact hskipb)

/-! ## Edge loop: monotonicity, force behavior, idempotence support -/

/-- One edge step either leaves the store alone or overwrites the item's
own filename; it never removes a file. -/
theorem edgeStep_store_cases (voice : String) (d f : Bool) (st : EdgeState)
    (p : Item × Option String) :
    (edgeStep voice d f st p).store = st.store
    ∨ (edgeStep voice d f st p).store
        = setStore st.store p.1.filename
            (Content.synth "edge" AudioFmt.mp3 p.1.text_for_audio (some voice)) := by
  by_cases hc : (lookupStore st.store p.1.filename).isSome = true ∧ f = false
  · left
    simp only [edgeStep, if_pos hc]
  · by_cases hd : d = true
    · left
      simp only [edgeStep, if_neg hc, if_pos hd]
    · cases hp2 : p.2 with
      | none =>
          right
          simp only [edgeStep, if_neg hc, if_neg hd, hp2]
      | some msg =>
          left
          simp only [edgeStep, if_neg hc, if_neg hd, hp2]

/-- Files present before an edge run are still present after it
(no operation of the loop ever deletes an Asset Store entry). -/
theorem edge_foldl_store_mono (voice : String) (d f : Bool) :
    ∀ (items : List (Item × Option String)) (st : EdgeState) (k : String),
      (lookupStore st.store k).isSome = true →
      (lookupStore (List.foldl (edgeStep voice d f) st items).store k).isSome = true := by
  intro items
  induction items with
  | nil => intro st k h; exact h
  | cons p ps ih =>
      intro st k h
      rw [List.foldl_cons]
      apply ih
      rcases edgeStep_store_cases voice d f st p with hcase | hcase
      · rw [hcase]; exact h
      · rw [hcase]; exact lookupStore_set_isSome _ _ _ _ h

/-- With force on, the skip branch is unreachable: one step never
increments `skipped`. -/
theorem edgeStep_force_skipped (voice : String) (d : Bool) (st : EdgeState)
    (p : Item × Option String) :
    (edgeStep voice d true st p).skipped = st.skipped := by
  have hc : ¬ ((lookupStore st.store p.1.filename).isSome = true ∧ true = false) := by
    rintro ⟨-, h2⟩
    exact absurd h2 (by simp)
  by_cases hd : d = true
  · simp only [edgeStep, if_neg hc, if_pos hd]
  · cases hp2 : p.2 with
    | none => simp only [edgeStep, if_neg hc, if_neg hd, hp2]
    | some msg => simp only [edgeStep, if_neg hc, if_neg hd, hp2]

/-- With force on, an edge run skips nothing. -/
theorem edge_foldl_force_skipped (voice : String) (d : Bool) :
    ∀ (items : List (Item × Option String)) (st : EdgeState),
      (List.foldl (edgeStep voice d true) st items).skipped = st.skipped := by
  intro items
  induction items with
  | nil => intro st; rfl
  | cons p ps ih =>
      intro st
      rw [List.foldl_cons, ih, edgeStep_force_skipped]

/-- After a run in which every synthesis succeeds (no dry-run, no
force), every item's asset is present. -/
theorem edge_run_covers (voice : String) :
    ∀ (items : List (Item × Option String)) (st : EdgeState),
      (∀ p ∈ items, p.2 = none) →
      ∀ p ∈ items,
        (lookupStore (List.foldl (edgeStep voice false false) st items).store
          p.1.filename).isSome = true := by
  intro items
  induction items with
  | nil => intro st _ p hp; exact absurd hp (by simp)
  | cons q ps ih =>
      intro st hok p hp
      rw [List.foldl_cons]
      rcases List.mem_cons.mp hp with rfl | hp'
      · -- p's own step leaves its asset present, and presence persists
        apply edge_foldl_store_mono
        by_cases hpres : (lookupStore st.store p.1.filename).isSome = true
        · have hstep : edgeStep voice false false st p =
              EdgeState.mk st.store st.generated (st.skipped + 1)
                (st.log ++ [LogEvent.skip p.1.filename]) := by
            simp [edgeStep, hpres]
          rw [hstep]
          exact hpres
        · have hstep : edgeStep voice false false st p =
              EdgeState.mk
                (setStore st.store p.1.filename
                  (Content.synth "edge" AudioFmt.mp3 p.1.text_for_audio (some voice)))
                (st.generated + 1) st.skipped
                (st.log ++ [LogEvent.generating p.1.filename p.1.text_for_audio]) := by
            simp [edgeStep, hpres, hok p (List.mem_cons_self _ _)]
          rw [hstep]
          simp [lookupStore_set_self]
      · exact ih (edgeStep voice false false st q)
          (fun r hr => hok r (List.mem_cons_of_mem _ hr)) p hp'

/-- A run over items whose assets all already exist (force off) only
skips: one `[skip]` line and one `skipped` increment per item, and the
store, generated count and log prefix are unchanged. -/
theorem edge_all_present_skips (voice : String) (d : Bool) :
    ∀ (items : List (Item × Option String)) (st : EdgeState),
      (∀ p ∈ items, (lookupStore st.store p.1.filename).isSome = true) →
      List.foldl (edgeStep voice d false) st items =
        EdgeState.mk st.store st.generated (st.skipped + items.length)
          (st.log ++ items.map (fun p => LogEvent.skip p.1.filename)) := by
  intro items
  induction items with
  | nil => intro st _; simp
  | cons q ps ih =>
      intro st hpres
      rw [List.foldl_cons]
      have hstep : edgeStep voice d false st q =
          EdgeState.mk st.store st.generated (st.skipped + 1)
            (st.log ++ [LogEvent.skip q.1.filename]) := by
        simp [edgeStep, hpres q (List.mem_cons_self _ _)]
      rw [hstep, ih]
      · simp [Nat.add_assoc, Nat.add_comm 1]
      · intro p hp
        exact hpres p (List.mem_cons_of_mem _ hp)

/-! ## ffmpeg availability is invisible outside file contents -/

/-- Writing the same filename keeps two stores existence-synchronized. -/
theorem setStore_sync (s₀ s₁ : Store) (k : String) (v₀ v₁ : Content)
    (h : ∀ k', (lookupStore s₀ k').isSome = (lookupStore s₁ k').isSome) :
    ∀ k', (lookupStore (setStore s₀ k v₀) k').isSome
        = (lookupStore (setStore s₁ k v₁) k').isSome := by
  intro k'
  by_cases hk : k' = k
  · subst hk
    rw [lookupStore_set_self, lookupStore_set_self]
    rfl
  · rw [lookupStore_set_ne s₀ k k' v₀ hk, lookupStore_set_ne s₁ k k' v₁ hk]
    exact h k'

/-- Whether ffmpeg is available changes only the bytes written into
assets (wav vs mp3 under the same filename): two runs of the local loop
differing only in ffmpeg availability produce identical logs, identical
generated/skipped counts, identical session state, and stores with
exactly the same files present. -/
theorem local_ffmpeg_blind (engine : LocalEngine) (voice : String) (env : LocalEnv)
    (d f : Bool) (henv : envOkFor engine env) :
    ∀ (items : List (Item × Option String)) (st₀ st₁ : LocalState),
      st₀.generated = st₁.generated → st₀.skipped = st₁.skipped →
      st₀.log = st₁.log → st₀.model = st₁.model →
      (∀ k, (lookupStore st₀.store k).isSome = (lookupStore st₁.store k).isSome) →
      ∃ st₀' st₁',
        localLoop engine voice { env with ffmpegOk := false } d f st₀ items
            = Except.ok st₀'
        ∧ localLoop engine voice { env with ffmpegOk := true } d f st₁ items
            = Except.ok st₁'
        ∧ st₀'.generated = st₁'.generated ∧ st₀'.skipped = st₁'.skipped
        ∧ st₀'.log = st₁'.log ∧ st₀'.model = st₁'.model
        ∧ (∀ k, (lookupStore st₀'.store k).isSome = (lookupStore st₁'.store k).isSome) := by
  intro items
  induction items with
  | nil =>
      intro st₀ st₁ hg hs hl hm hsync
      exact ⟨st₀, st₁, rfl, rfl, hg, hs, hl, hm, hsync⟩
  | cons q ps ih =>
      intro st₀ st₁ hg hs hl hm hsync
      have henvF : envOkFor engine { env with ffmpegOk := false } := henv
      have henvT : envOkFor engine { env with ffmpegOk := true } := henv
      rw [localLoop, localLoop]
      by_cases hb : (lookupStore st₀.store q.1.filename).isSome = true ∧ f = false
      · have hb' : (lookupStore st₁.store q.1.filename).isSome = true ∧ f = false :=
          ⟨(hsync q.1.filename) ▸ hb.1, hb.2⟩
        rw [localStep_skip_case _ _ _ d f st₀ q hb,
          localStep_skip_case _ _ _ d f st₁ q hb']
        exact ih _ _ (by simpa using hg) (by simpa using hs)
          (by simp [hl]) (by simpa using hm) hsync
      · have hb' : ¬ ((lookupStore st₁.store q.1.filename).isSome = true ∧ f = false) := by
          rw [← hsync q.1.filename]
          exact hb
        by_cases hd : d = true
        · subst hd
          rw [localStep_dry_case _ _ _ f st₀ q hb,
            localStep_dry_case _ _ _ f st₁ q hb']
          exact ih _ _ (by simpa using hg) (by simpa using hs)
            (by simp [hl]) (by simpa using hm) hsync
        · have hd' : d = false := by
            cases d
            · rfl
            · exact absurd rfl hd
          subst hd'
          cases hq2 : q.2 with
          | some msg =>
              have hcall₀ := localCall_exc engine voice { env with ffmpegOk := false }
                q st₀.model msg henvF hq2
              have hcall₁ := localCall_exc engine voice { env with ffmpegOk := true }
                q st₁.model msg henvT hq2
              rw [localStep_gen_exc _ _ _ f st₀ q _ msg hb hcall₀,
                localStep_gen_exc _ _ _ f st₁ q _ msg hb' hcall₁]
              exact ih _ _ (by simpa using hg) (by simpa using hs)
                (by simp [hl, hm]) (by simpa using hm) hsync
          | none =>
              have hcall₀ := localCall_ok engine voice { env with ffmpegOk := false }
                q st₀.model henvF hq2
              have hcall₁ := localCall_ok engine voice { env with ffmpegOk := true }
                q st₁.model henvT hq2
              rw [localStep_gen_ok _ _ _ f st₀ q _ _ _ hb hcall₀,
                localStep_gen_ok _ _ _ f st₁ q _ _ _ hb' hcall₁]
              refine ih _ _ (by simpa using hg) (by simpa using hs)
                (by simp [hl, hm]) ?_ ?_
              · show some (sessionAfter engine { env with ffmpegOk := false } st₀.model)
                    = some (sessionAfter engine { env with ffmpegOk := true } st₁.model)
                rw [hm]
                rfl
              · intro k
                exact setStore_sync st₀.store st₁.store q.1.filename _ _ hsync k

/-! ## Concrete environments for witnesses and counterexamples -/

/-- Everything installed, a model path present, ffmpeg available. -/
def envAllOk : LocalEnv := ⟨true, true, true, fun _ => true, true⟩

/-- Like `envAllOk` but the external ffmpeg tool is unavailable. -/
def envNoFfmpeg : LocalEnv := ⟨true, true, true, fun _ => true, false⟩

/-- Like `envAllOk` but the ChatTTS dependency is not installed. -/
def envNoChatTTS : LocalEnv := ⟨true, true, false, fun _ => true, true⟩

/-- Like `envAllOk` but the CosyVoice package is not installed. -/
def envNoCosy : LocalEnv := ⟨true, false, true, fun _ => true, true⟩

/-! ## C1: force mode -/

/-- Second definition following the spec's words, for comparison with
`generate_all_edge`: "when enabled, existing assets for all selected
items are deleted before the batch starts (eager deletion pass), after
which every item behaves as if absent". -/
def specForceEagerRun (edgeImportable : Bool) (voice : String)
    (dryRun force : Bool) (store : Store)
    (items : List (Item × Option String)) : Except Err EdgeState :=
  let store' :=
    if force = true then
      items.foldl (fun s p => s.filter (fun kv => kv.1 != p.1.filename)) store
    else store
  generate_all_edge edgeImportable voice dryRun force store' items

/-- **C1 — counterexample.**  One item with an existing asset, force on,
synthesis raising: the code (which never deletes, it only bypasses the
existence check) finishes with the old asset still present, while the
claimed eager-deletion semantics finishes with the asset gone — so no
eager deletion pass exists, and the claim is false on the code. -/
theorem c1_counterexample :
    generate_all_edge true "v" false true [("f.mp3", Content.pre 0)]
        [(Item.mk "t" "t" "f.mp3", some "boom")]
      = Except.ok (EdgeState.mk [("f.mp3", Content.pre 0)] 0 0
          [LogEvent.generating "f.mp3" "t", LogEvent.error "boom"])
    ∧ specForceEagerRun true "v" false true [("f.mp3", Content.pre 0)]
        [(Item.mk "t" "t" "f.mp3", some "boom")]
      = Except.ok (EdgeState.mk [] 0 0
          [LogEvent.generating "f.mp3" "t", LogEvent.error "boom"])
    ∧ ([("f.mp3", Content.pre 0)] : Store) ≠ ([] : Store) := by
  refine ⟨rfl, rfl, by decide⟩

/-- **C1 — amended.**  Force mode performs no eager deletion pass:
it merely disables the existence check, so nothing is ever skipped
(`skipped = 0` whenever force is on) and existing assets are
regenerated (overwritten) item by item when their synthesis succeeds;
no operation of either generation loop ever deletes an Asset Store
entry — any filename present before the run is still present after it,
in every mode. -/
theorem c1_force_no_deletion (voice : String) (dryRun force : Bool)
    (store : Store) (items : List (Item × Option String)) (k : String)
    (engine : LocalEngine) (env : LocalEnv) (st' : LocalState)
    (hk : (lookupStore store k).isSome = true) :
    (∃ st, generate_all_edge true voice dryRun force store items = Except.ok st
      ∧ (lookupStore st.store k).isSome = true
      ∧ (force = true → st.skipped = 0))
    ∧ (generate_all_local engine voice env dryRun force store items = Except.ok st' →
        (lookupStore st'.store k).isSome = true
        ∧ (force = true → st'.skipped = 0)) := by
  constructor
  · refine ⟨List.foldl (edgeStep voice dryRun force) (EdgeState.mk store 0 0 []) items,
      rfl, ?_, ?_⟩
    · exact edge_foldl_store_mono voice dryRun force items _ k hk
    · intro hf
      subst hf
      exact edge_foldl_force_skipped voice dryRun items _
  · intro hloc
    obtain ⟨mono, skipz, -, -⟩ := localLoop_ok_shape engine voice env dryRun force
      items (LocalState.mk store 0 0 [] none) st' hloc
    exact ⟨mono k hk, fun hf => skipz hf⟩

/-- Witness for C1 (amended) at a concrete input: an existing `a.mp3`
asset survives a forced edge run and a forced chattts run, and neither
run skips anything. -/
theorem c1_force_no_deletion_witness :
    (∃ st, generate_all_edge true "v" false true [("a.mp3", Content.pre 0)]
        [(Item.mk "t" "t" "a.mp3", none)] = Except.ok st
      ∧ (lookupStore st.store "a.mp3").isSome = true
      ∧ (true = true → st.skipped = 0))
    ∧ ((lookupStore (LocalState.mk
          [("a.mp3", Content.synth "chattts" AudioFmt.mp3 "t" none)] 1 0
          [LogEvent.generating "a.mp3" "t", LogEvent.loadingModel]
          (some Model.chat)).store "a.mp3").isSome = true
        ∧ (true = true → (LocalState.mk
          [("a.mp3", Content.synth "chattts" AudioFmt.mp3 "t" none)] 1 0
          [LogEvent.generating "a.mp3" "t", LogEvent.loadingModel]
          (some Model.chat)).skipped = 0)) := by
  have h := c1_force_no_deletion "v" false true [("a.mp3", Content.pre 0)]
    [(Item.mk "t" "t" "a.mp3", none)] "a.mp3" LocalEngine.chattts envAllOk
    (LocalState.mk [("a.mp3", Content.synth "chattts" AudioFmt.mp3 "t" none)] 1 0
      [LogEvent.generating "a.mp3" "t", LogEvent.loadingModel] (some Model.chat))
    (by decide)
  exact ⟨h.1, h.2 rfl⟩

/-! ## C2: dry-run -/

/-- The dry-run loops print only `[skip]` and `[would generate]`. -/
def isDryEvent : LogEvent → Prop
  | LogEvent.skip _ => True
  | LogEvent.wouldGenerate _ _ => True
  | _ => False

/-- **C2 — counterexample.**  Dry-run over one item whose asset exists
(force off): the item is SKIPPED — the log is `[skip a.mp3]` and the
skipped count is 1 — not DRY_RUN_NOTED as the claim states ("regardless
of whether its asset already exists"): the existence check runs before
the dry-run check. -/
theorem c2_counterexample :
    generate_all_edge true "v" true false [("a.mp3", Content.pre 0)]
        [(Item.mk "t" "t" "a.mp3", none)]
      = Except.ok (EdgeState.mk [("a.mp3", Content.pre 0)] 0 1 [LogEvent.skip "a.mp3"])
    ∧ LogEvent.skip "a.mp3" ≠ LogEvent.wouldGenerate "a.mp3" "t" := by
  refine ⟨rfl, by decide⟩

/-- **C2 — amended.**  In dry-run mode an item whose asset exists while
force is off transitions to SKIPPED; every other item transitions to
DRY_RUN_NOTED (`[would generate]`); in all cases, for both loops, the
run returns normally, the Asset Store is completely untouched, nothing
is counted generated, no engine session is ever created, and the log
holds nothing but `[skip]`/`[would generate]` lines — no synthesis, no
model loading, no errors. -/
theorem c2_dry_run_purity (engine : LocalEngine) (voice : String) (env : LocalEnv)
    (force : Bool) (store : Store) (items : List (Item × Option String)) :
    (∃ st, generate_all_edge true voice true force store items = Except.ok st
      ∧ st.store = store ∧ st.generated = 0
      ∧ st.log = items.map (fun p =>
          if (lookupStore store p.1.filename).isSome && !force then
            LogEvent.skip p.1.filename
          else LogEvent.wouldGenerate p.1.filename p.1.text)
      ∧ (∀ e ∈ st.log, isDryEvent e))
    ∧ (∃ st, generate_all_local engine voice env true force store items = Except.ok st
      ∧ st.store = store ∧ st.generated = 0 ∧ st.model = none
      ∧ st.log = items.map (fun p =>
          if (lookupStore store p.1.filename).isSome && !force then
            LogEvent.skip p.1.filename
          else LogEvent.wouldGenerate p.1.filename p.1.text)
      ∧ (∀ e ∈ st.log, isDryEvent e)) := by
  have hdryev : ∀ (st : EdgeState),
      st.log = items.map (fun p =>
        if (lookupStore store p.1.filename).isSome && !force then
          LogEvent.skip p.1.filename
        else LogEvent.wouldGenerate p.1.filename p.1.text) →
      ∀ e ∈ st.log, isDryEvent e := by
    intro st hlog e he
    rw [hlog] at he
    obtain ⟨p, -, rfl⟩ := List.mem_map.mp he
    by_cases hcond : ((lookupStore store p.1.filename).isSome && !force) = true
    · simp [hcond, isDryEvent]
    · simp only [Bool.not_eq_true] at hcond
      simp [hcond, isDryEvent]
  constructor
  · refine ⟨List.foldl (edgeStep voice true force) (EdgeState.mk store 0 0 []) items,
      rfl, ?_, ?_, ?_, ?_⟩
    · rw [edge_dry_fields voice force items (EdgeState.mk store 0 0 [])]
    · rw [edge_dry_fields voice force items (EdgeState.mk store 0 0 [])]
    · rw [edge_dry_fields voice force items (EdgeState.mk store 0 0 [])]
      simp
    · apply hdryev
      rw [edge_dry_fields voice force items (EdgeState.mk store 0 0 [])]
      simp
  · refine ⟨LocalState.mk store 0
        (0 + (items.filter (fun p =>
          (lookupStore store p.1.filename).isSome && !force)).length)
        ([] ++ items.map (fun p =>
          if (lookupStore store p.1.filename).isSome && !force then
            LogEvent.skip p.1.filename
          else LogEvent.wouldGenerate p.1.filename p.1.text)) none,
      local_dry_fields engine voice env force items (LocalState.mk store 0 0 [] none),
      rfl, rfl, rfl, by simp, ?_⟩
    intro e he
    simp only [List.nil_append] at he
    obtain ⟨p, -, rfl⟩ := List.mem_map.mp he
    by_cases hcond : ((lookupStore store p.1.filename).isSome && !force) = true
    · simp [hcond, isDryEvent]
    · simp only [Bool.not_eq_true] at hcond
      simp [hcond, isDryEvent]

/-- Witness for C2 (amended) at a concrete input: one existing and one
absent item under dry-run. -/
theorem c2_dry_run_purity_witness :
    (∃ st, generate_all_edge true "v" true false [("a.mp3", Content.pre 0)]
        [(Item.mk "ta" "ta" "a.mp3", none), (Item.mk "tb" "tb" "b.mp3", none)]
        = Except.ok st
      ∧ st.store = [("a.mp3", Content.pre 0)] ∧ st.generated = 0
      ∧ st.log = [(Item.mk "ta" "ta" "a.mp3", (none : Option String)),
          (Item.mk "tb" "tb" "b.mp3", none)].map (fun p =>
          if (lookupStore [("a.mp3", Content.pre 0)] p.1.filename).isSome && !false then
            LogEvent.skip p.1.filename
          else LogEvent.wouldGenerate p.1.filename p.1.text)
      ∧ (∀ e ∈ st.log, isDryEvent e))
    ∧ (∃ st, generate_all_local LocalEngine.cosyvoice "v" envAllOk true false
        [("a.mp3", Content.pre 0)]
        [(Item.mk "ta" "ta" "a.mp3", none), (Item.mk "tb" "tb" "b.mp3", none)]
        = Except.ok st
      ∧ st.store = [("a.mp3", Content.pre 0)] ∧ st.generated = 0 ∧ st.model = none
      ∧ st.log = [(Item.mk "ta" "ta" "a.mp3", (none : Option String)),
          (Item.mk "tb" "tb" "b.mp3", none)].map (fun p =>
          if (lookupStore [("a.mp3", Content.pre 0)] p.1.filename).isSome && !false then
            LogEvent.skip p.1.filename
          else LogEvent.wouldGenerate p.1.filename p.1.text)
      ∧ (∀ e ∈ st.log, isDryEvent e)) :=
  c2_dry_run_purity LocalEngine.cosyvoice "v" envAllOk false
    [("a.mp3", Content.pre 0)]
    [(Item.mk "ta" "ta" "a.mp3", none), (Item.mk "tb" "tb" "b.mp3", none)]

/-! ## C3: per-item failure isolation -/

/-- **C3.**  For both loops (edge, and a local engine whose environment
preconditions hold), over items with pairwise distinct filenames and
dry-run off: a recoverable synthesis error never aborts the run; every
attempted item that raises is reported in the log by its `[generating
filename]` line directly followed (for local engines, possibly after
the one-off "Loading" notice) by the `Error` line; the final tallies
are computed over ALL items — `generated` counts exactly the
non-skipped items whose synthesis succeeded, `skipped` counts exactly
the items whose asset existed with force off, and failed items are
counted in neither. -/
theorem c3_failure_isolation (voice : String) (force : Bool) (store : Store)
    (items : List (Item × Option String)) (engine : LocalEngine) (env : LocalEnv)
    (hnd : (items.map (fun p => p.1.filename)).Nodup)
    (henv : envOkFor engine env) :
    (∃ st, generate_all_edge true voice false force store items = Except.ok st
      ∧ st.generated = (items.filter (fun p =>
          (!(lookupStore store p.1.filename).isSome || force) && p.2.isNone)).length
      ∧ st.skipped = (items.filter (fun p =>
          (lookupStore store p.1.filename).isSome && !force)).length
      ∧ (∀ p ∈ items, ∀ msg, p.2 = some msg →
          ((lookupStore store p.1.filename).isSome && !force) = false →
          [LogEvent.generating p.1.filename p.1.text_for_audio, LogEvent.error msg]
            <:+: st.log))
    ∧ (∃ st, generate_all_local engine voice env false force store items = Except.ok st
      ∧ st.generated = (items.filter (fun p =>
          (!(lookupStore store p.1.filename).isSome || force) && p.2.isNone)).length
      ∧ st.skipped = (items.filter (fun p =>
          (lookupStore store p.1.filename).isSome && !force)).length
      ∧ (∀ p ∈ items, ∀ msg, p.2 = some msg →
          ((lookupStore store p.1.filename).isSome && !force) = false →
          ∃ mid, (mid = [] ∨ mid = [LogEvent.loadingModel]) ∧
            ([LogEvent.generating p.1.filename p.1.text_for_audio] ++ mid
              ++ [LogEvent.error msg]) <:+: st.log)) := by
  constructor
  · obtain ⟨hgen, hskip, -, herr⟩ :=
      edge_run_fields voice force items (EdgeState.mk store 0 0 []) hnd
    exact ⟨_, rfl, by simpa using hgen, by simpa using hskip, herr⟩
  · obtain ⟨st', hloop, hgen, hskip, -, herr⟩ :=
      local_run_fields engine voice env force henv items
        (LocalState.mk store 0 0 [] none) hnd
    exact ⟨st', hloop, by simpa using hgen, by simpa using hskip, herr⟩

/-- Witness for C3 at the spec's 5-item scenario: item #1's asset exists
(skipped), item #3 raises, items #2, #4, #5 succeed; both loops finish
with generated = 3 and skipped = 1, and log the failure of item #3. -/
theorem c3_failure_isolation_witness :
    (∃ st, generate_all_edge true "v" false false [("f1.mp3", Content.pre 0)]
        [(Item.mk "t1" "t1" "f1.mp3", none), (Item.mk "t2" "t2" "f2.mp3", none),
         (Item.mk "t3" "t3" "f3.mp3", some "boom"), (Item.mk "t4" "t4" "f4.mp3", none),
         (Item.mk "t5" "t5" "f5.mp3", none)] = Except.ok st
      ∧ st.generated = ([(Item.mk "t1" "t1" "f1.mp3", (none : Option String)),
          (Item.mk "t2" "t2" "f2.mp3", none), (Item.mk "t3" "t3" "f3.mp3", some "boom"),
          (Item.mk "t4" "t4" "f4.mp3", none), (Item.mk "t5" "t5" "f5.mp3", none)].filter
            (fun p => (!(lookupStore [("f1.mp3", Content.pre 0)] p.1.filename).isSome
              || false) && p.2.isNone)).length
      ∧ st.skipped = ([(Item.mk "t1" "t1" "f1.mp3", (none : Option String)),
          (Item.mk "t2" "t2" "f2.mp3", none), (Item.mk "t3" "t3" "f3.mp3", some "boom"),
          (Item.mk "t4" "t4" "f4.mp3", none), (Item.mk "t5" "t5" "f5.mp3", none)].filter
            (fun p => (lookupStore [("f1.mp3", Content.pre 0)] p.1.filename).isSome
              && !false)).length
      ∧ (∀ p ∈ [(Item.mk "t1" "t1" "f1.mp3", (none : Option String)),
          (Item.mk "t2" "t2" "f2.mp3", none), (Item.mk "t3" "t3" "f3.mp3", some "boom"),
          (Item.mk "t4" "t4" "f4.mp3", none), (Item.mk "t5" "t5" "f5.mp3", none)],
          ∀ msg, p.2 = some msg →
          ((lookupStore [("f1.mp3", Content.pre 0)] p.1.filename).isSome && !false) = false →
          [LogEvent.generating p.1.filename p.1.text_for_audio, LogEvent.error msg]
            <:+: st.log))
    ∧ (∃ st, generate_all_local LocalEngine.cosyvoice "v" envAllOk false false
        [("f1.mp3", Content.pre 0)]
        [(Item.mk "t1" "t1" "f1.mp3", none), (Item.mk "t2" "t2" "f2.mp3", none),
         (Item.mk "t3" "t3" "f3.mp3", some "boom"), (Item.mk "t4" "t4" "f4.mp3", none),
         (Item.mk "t5" "t5" "f5.mp3", none)] = Except.ok st
      ∧ st.generated = ([(Item.mk "t1" "t1" "f1.mp3", (none : Option String)),
          (Item.mk "t2" "t2" "f2.mp3", none), (Item.mk "t3" "t3" "f3.mp3", some "boom"),
          (Item.mk "t4" "t4" "f4.mp3", none), (Item.mk "t5" "t5" "f5.mp3", none)].filter
            (fun p => (!(lookupStore [("f1.mp3", Content.pre 0)] p.1.filename).isSome
              || false) && p.2.isNone)).length
      ∧ st.skipped = ([(Item.mk "t1" "t1" "f1.mp3", (none : Option String)),
          (Item.mk "t2" "t2" "f2.mp3", none), (Item.mk "t3" "t3" "f3.mp3", some "boom"),
          (Item.mk "t4" "t4" "f4.mp3", none), (Item.mk "t5" "t5" "f5.mp3", none)].filter
            (fun p => (lookupStore [("f1.mp3", Content.pre 0)] p.1.filename).isSome
              && !false)).length
      ∧ (∀ p ∈ [(Item.mk "t1" "t1" "f1.mp3", (none : Option String)),
          (Item.mk "t2" "t2" "f2.mp3", none), (Item.mk "t3" "t3" "f3.mp3", some "boom"),
          (Item.mk "t4" "t4" "f4.mp3", none), (Item.mk "t5" "t5" "f5.mp3", none)],
          ∀ msg, p.2 = some msg →
          ((lookupStore [("f1.mp3", Content.pre 0)] p.1.filename).isSome && !false) = false →
          ∃ mid, (mid = [] ∨ mid = [LogEvent.loadingModel]) ∧
            ([LogEvent.generating p.1.filename p.1.text_for_audio] ++ mid
              ++ [LogEvent.error msg]) <:+: st.log)) :=
  c3_failure_isolation "v" false [("f1.mp3", Content.pre 0)]
    [(Item.mk "t1" "t1" "f1.mp3", none), (Item.mk "t2" "t2" "f2.mp3", none),
     (Item.mk "t3" "t3" "f3.mp3", some "boom"), (Item.mk "t4" "t4" "f4.mp3", none),
     (Item.mk "t5" "t5" "f5.mp3", none)] LocalEngine.cosyvoice envAllOk
    (by decide) ⟨rfl, fun _ => ⟨rfl, rfl⟩, fun _ => rfl⟩

/-! ## C5: idempotence of the pipeline without force -/

/-- **C5.**  If a first edge run (no dry-run, no force) succeeds for
every item, a second identical run leaves the Asset Store exactly as
the first run left it, generates nothing, and skips every item. -/
theorem c5_idempotence (voice : String) (store : Store)
    (items : List (Item × Option String))
    (hok : ∀ p ∈ items, p.2 = none) :
    ∃ st1 st2,
      generate_all_edge true voice false false store items = Except.ok st1
      ∧ generate_all_edge true voice false false st1.store items = Except.ok st2
      ∧ st2.store = st1.store ∧ st2.generated = 0 ∧ st2.skipped = items.length := by
  have hpres : ∀ p ∈ items,
      (lookupStore (List.foldl (edgeStep voice false false)
        (EdgeState.mk store 0 0 []) items).store p.1.filename).isSome = true :=
    edge_run_covers voice items (EdgeState.mk store 0 0 []) hok
  have h2 := edge_all_present_skips voice false items
    (EdgeState.mk (List.foldl (edgeStep voice false false)
      (EdgeState.mk store 0 0 []) items).store 0 0 []) hpres
  refine ⟨List.foldl (edgeStep voice false false) (EdgeState.mk store 0 0 []) items,
    _, rfl, rfl, ?_, ?_, ?_⟩
  · rw [h2]
  · rw [h2]
  · rw [h2]
    simp

/-- Witness for C5 at a concrete input: two fresh items, run twice. -/
theorem c5_idempotence_witness :
    ∃ st1 st2,
      generate_all_edge true "v" false false []
        [(Item.mk "ta" "ta" "a.mp3", none), (Item.mk "tb" "tb" "b.mp3", none)]
        = Except.ok st1
      ∧ generate_all_edge true "v" false false st1.store
        [(Item.mk "ta" "ta" "a.mp3", none), (Item.mk "tb" "tb" "b.mp3", none)]
        = Except.ok st2
      ∧ st2.store = st1.store ∧ st2.generated = 0 ∧ st2.skipped =
          [(Item.mk "ta" "ta" "a.mp3", (none : Option String)),
           (Item.mk "tb" "tb" "b.mp3", none)].length :=
  c5_idempotence "v" []
    [(Item.mk "ta" "ta" "a.mp3", none), (Item.mk "tb" "tb" "b.mp3", none)]
    (by decide)

/-! ## C9: dry-run tally undercounts absent items -/

/-- **C9.**  In dry-run mode an item whose asset is absent is counted
in neither tally, so whenever at least one item's asset is absent the
reported `generated + skipped` is strictly below the item count — for
both loops. -/
theorem c9_dry_run_tally (engine : LocalEngine) (voice : String) (env : LocalEnv)
    (force : Bool) (store : Store) (items : List (Item × Option String))
    (habsent : ∃ p ∈ items, (lookupStore store p.1.filename).isSome = false) :
    (∃ st, generate_all_edge true voice true force store items = Except.ok st
      ∧ st.generated + st.skipped < items.length)
    ∧ (∃ st, generate_all_local engine voice env true force store items = Except.ok st
      ∧ st.generated + st.skipped < items.length) := by
  obtain ⟨p0, hp0, hp0absent⟩ := habsent
  have hlt : ((items.filter (fun p =>
      (lookupStore store p.1.filename).isSome && !force)).length < items.length) := by
    apply List.length_filter_lt_length_iff_exists.mpr
    exact ⟨p0, hp0, by simp [hp0absent]⟩
  constructor
  · refine ⟨_, rfl, ?_⟩
    rw [edge_dry_fields voice force items (EdgeState.mk store 0 0 [])]
    simpa using hlt
  · refine ⟨_, local_dry_fields engine voice env force items
      (LocalState.mk store 0 0 [] none), ?_⟩
    simpa using hlt

/-- Witness for C9 at a concrete input: one present and one absent item. -/
theorem c9_dry_run_tally_witness :
    (∃ st, generate_all_edge true "v" true false [("a.mp3", Content.pre 0)]
        [(Item.mk "ta" "ta" "a.mp3", none), (Item.mk "tb" "tb" "b.mp3", none)]
        = Except.ok st
      ∧ st.generated + st.skipped <
          [(Item.mk "ta" "ta" "a.mp3", (none : Option String)),
           (Item.mk "tb" "tb" "b.mp3", none)].length)
    ∧ (∃ st, generate_all_local LocalEngine.chattts "v" envAllOk true false
        [("a.mp3", Content.pre 0)]
        [(Item.mk "ta" "ta" "a.mp3", none), (Item.mk "tb" "tb" "b.mp3", none)]
        = Except.ok st
      ∧ st.generated + st.skipped <
          [(Item.mk "ta" "ta" "a.mp3", (none : Option String)),
           (Item.mk "tb" "tb" "b.mp3", none)].length) :=
  c9_dry_run_tally LocalEngine.chattts "v" envAllOk false [("a.mp3", Content.pre 0)]
    [(Item.mk "ta" "ta" "a.mp3", none), (Item.mk "tb" "tb" "b.mp3", none)]
    ⟨(Item.mk "tb" "tb" "b.mp3", none), by decide, by decide⟩

/-! ## C6: exit behavior on fatal precondition failures -/

/-- **C6 — counterexample.**  A missing ChatTTS dependency is a
"required local dependency not installed", yet the run is NOT
terminated: `import ChatTTS` is not wrapped in try/except, so the
`ImportError` is an ordinary exception that the per-item handler
catches; the run completes normally (`Except.ok`, not an exit), merely
logging the error for the item. -/
theorem c6_counterexample :
    generate_all_local LocalEngine.chattts "v" envNoChatTTS false false []
        [(Item.mk "t" "t" "a.mp3", none)]
      = Except.ok (LocalState.mk [] 0 0
          [LogEvent.generating "a.mp3" "t",
           LogEvent.error "No module named ChatTTS"] none)
    ∧ generate_all_local LocalEngine.chattts "v" envNoChatTTS false false []
        [(Item.mk "t" "t" "a.mp3", none)]
      ≠ Except.error (Err.exit 1) := by
  refine ⟨rfl, ?_⟩
  have h1 : generate_all_local LocalEngine.chattts "v" envNoChatTTS false false []
      [(Item.mk "t" "t" "a.mp3", none)]
      = Except.ok (LocalState.mk [] 0 0
          [LogEvent.generating "a.mp3" "t",
           LogEvent.error "No module named ChatTTS"] none) := rfl
  rw [h1]
  simp

/-- **C6 — amended.**  Fatal precondition failures terminate the run
with `sys.exit(1)`, which the per-item `except Exception` does not
catch: a missing source document aborts before any batch; a missing
`edge-tts` dependency aborts the edge run before any item; and a local
run aborts only for the CosyVoice engine — because the CosyVoice
package does not import or the model artifact exists at no candidate
path — at the first item needing the session, at which point no asset
has been created and nothing has been generated (though earlier items
may already have been counted skipped).  A missing ChatTTS dependency
(or any other ordinary per-item exception) never terminates a run: the
ChatTTS loop always completes, as does any local run whose engine
environment preconditions hold. -/
theorem c6_exit_behavior :
    (extract_phrases none = Except.error (Err.exit 1))
    ∧ (∀ (edgeImp : Bool) (voice : String) (d f : Bool) (store : Store)
          (synthErr : String → Option String),
        runPipeline none edgeImp voice d f store synthErr = Except.error (Err.exit 1))
    ∧ (∀ (voice : String) (d f : Bool) (store : Store)
          (items : List (Item × Option String)),
        generate_all_edge false voice d f store items = Except.error (Err.exit 1))
    ∧ (∀ (engine : LocalEngine) (voice : String) (env : LocalEnv) (d f : Bool)
          (store : Store) (items : List (Item × Option String)) (e : Err),
        generate_all_local engine voice env d f store items = Except.error e →
        e = Err.exit 1 ∧ engine = LocalEngine.cosyvoice
        ∧ env.torchImportable = true
        ∧ (env.cosyImportable = false ∨ findModelPath env.pathExists = none)
        ∧ ∃ pre q rest stMid, items = pre ++ q :: rest
            ∧ localLoop engine voice env d f (LocalState.mk store 0 0 [] none) pre
                = Except.ok stMid
            ∧ localStep engine voice env d f stMid q = Except.error e
            ∧ stMid.store = store ∧ stMid.generated = 0 ∧ stMid.model = none)
    ∧ (∀ (voice : String) (env : LocalEnv) (d f : Bool) (store : Store)
          (items : List (Item × Option String)),
        ∃ st, generate_all_local LocalEngine.chattts voice env d f store items
          = Except.ok st)
    ∧ (∀ (engine : LocalEngine) (voice : String) (env : LocalEnv) (d f : Bool)
          (store : Store) (items : List (Item × Option String)),
        envOkFor engine env →
        ∃ st, generate_all_local engine voice env d f store items = Except.ok st) := by
  refine ⟨rfl, fun _ _ _ _ _ _ => rfl, fun _ _ _ _ _ => rfl, ?_, ?_, ?_⟩
  · intro engine voice env d f store items e h
    obtain ⟨pre, q, rest, stMid, hdecomp, hpre, hfail, hmidm, -, hsto, hgen⟩ :=
      localLoop_fatal engine voice env d f items (LocalState.mk store 0 0 [] none) e h
    obtain ⟨he, heng, -, htorch, hcause⟩ :=
      localStep_fatal engine voice env d f stMid q e hfail
    exact ⟨he, heng, htorch, hcause,
      pre, q, rest, stMid, hdecomp, hpre, hfail, hsto, hgen, hmidm⟩
  · intro voice env d f store items
    cases hres : generate_all_local LocalEngine.chattts voice env d f store items with
    | ok st => exact ⟨st, rfl⟩
    | error e =>
        obtain ⟨pre, q, rest, stMid, -, -, hfail, -, -, -, -⟩ :=
          localLoop_fatal LocalEngine.chattts voice env d f items
            (LocalState.mk store 0 0 [] none) e hres
        obtain ⟨-, heng, -, -, -⟩ :=
          localStep_fatal LocalEngine.chattts voice env d f stMid q e hfail
        exact absurd heng (by simp)
  · intro engine voice env d f store items henv
    cases hres : generate_all_local engine voice env d f store items with
    | ok st => exact ⟨st, rfl⟩
    | error e =>
        obtain ⟨pre, q, rest, stMid, -, -, hfail, -, -, -, -⟩ :=
          localLoop_fatal engine voice env d f items
            (LocalState.mk store 0 0 [] none) e hres
        obtain ⟨-, heng, -, -, hcause⟩ :=
          localStep_fatal engine voice env d f stMid q e hfail
        subst heng
        obtain ⟨-, hcosy, -⟩ := henv
        obtain ⟨himp, hpath⟩ := hcosy rfl
        rcases hcause with hbad | hbad
        · rw [himp] at hbad
          exact absurd hbad (by simp)
        · rw [hbad] at hpath
          exact absurd hpath (by simp)

/-- Witness for C6 (amended) at concrete inputs: a CosyVoice run with
the package missing aborts with exit 1 having created nothing, and a
ChatTTS run with its dependency missing still completes. -/
theorem c6_exit_behavior_witness :
    (runPipeline none true "v" false false [] (fun _ => none)
        = Except.error (Err.exit 1))
    ∧ (generate_all_edge false "v" false false []
        ([] : List (Item × Option String)) = Except.error (Err.exit 1))
    ∧ (generate_all_local LocalEngine.cosyvoice "v" envNoCosy false false []
        [(Item.mk "t" "t" "a.mp3", none)] = Except.error (Err.exit 1))
    ∧ (Err.exit 1 = Err.exit 1 ∧ LocalEngine.cosyvoice = LocalEngine.cosyvoice
        ∧ envNoCosy.torchImportable = true
        ∧ (envNoCosy.cosyImportable = false
            ∨ findModelPath envNoCosy.pathExists = none)
        ∧ ∃ pre q rest stMid,
            [(Item.mk "t" "t" "a.mp3", (none : Option String))] = pre ++ q :: rest
            ∧ localLoop LocalEngine.cosyvoice "v" envNoCosy false false
                (LocalState.mk [] 0 0 [] none) pre = Except.ok stMid
            ∧ localStep LocalEngine.cosyvoice "v" envNoCosy false false stMid q
                = Except.error (Err.exit 1)
            ∧ stMid.store = [] ∧ stMid.generated = 0 ∧ stMid.model = none)
    ∧ (∃ st, generate_all_local LocalEngine.chattts "v" envNoChatTTS false false []
        [(Item.mk "t" "t" "a.mp3", none)] = Except.ok st) := by
  refine ⟨c6_exit_behavior.2.1 true "v" false false [] (fun _ => none),
    c6_exit_behavior.2.2.1 "v" false false [] [],
    rfl,
    c6_exit_behavior.2.2.2.1 LocalEngine.cosyvoice "v" envNoCosy false false []
      [(Item.mk "t" "t" "a.mp3", none)] (Err.exit 1) rfl,
    c6_exit_behavior.2.2.2.2.1 "v" envNoChatTTS false false []
      [(Item.mk "t" "t" "a.mp3", none)]⟩

/-! ## C8: transcode fallback -/

/-- **C8 — counterexample.**  With ffmpeg unavailable, the run
delivering the untranscoded wav under `f.mp3` produces EXACTLY the same
log as the run with ffmpeg available — `[generating]` then the loading
notice, nothing else — so no fallback notice is logged and the degraded
mode is not observable in the logs, contradicting the claim's "logged
as a fallback notice so it is observable". -/
theorem c8_counterexample :
    generate_all_local LocalEngine.cosyvoice "v" envNoFfmpeg false false []
        [(Item.mk "t" "t" "f.mp3", none)]
      = Except.ok (LocalState.mk
          [("f.mp3", Content.synth "cosyvoice" AudioFmt.wav "t" (some "v"))] 1 0
          [LogEvent.generating "f.mp3" "t", LogEvent.loadingModel]
          (some (Model.cosy "pretrained_models/CosyVoice-300M-SFT")))
    ∧ generate_all_local LocalEngine.cosyvoice "v" envAllOk false false []
        [(Item.mk "t" "t" "f.mp3", none)]
      = Except.ok (LocalState.mk
          [("f.mp3", Content.synth "cosyvoice" AudioFmt.mp3 "t" (some "v"))] 1 0
          [LogEvent.generating "f.mp3" "t", LogEvent.loadingModel]
          (some (Model.cosy "pretrained_models/CosyVoice-300M-SFT")))
    ∧ lookupStore [("f.mp3", Content.synth "cosyvoice" AudioFmt.wav "t" (some "v"))]
        "f.mp3" = some (Content.synth "cosyvoice" AudioFmt.wav "t" (some "v")) := by
  refine ⟨rfl, rfl, rfl⟩

/-- **C8 — amended.**  When the transcoding tool is unavailable the
item is not treated as an error: the untranscoded wav audio is
delivered under the target `.mp3` filename and the item counts as
generated.  However, the fallback is silent: the branch prints nothing,
so a run without ffmpeg produces a log (and counts) identical to the
same run with ffmpeg — the degraded mode is not observable in logs,
only in the file contents. -/
theorem c8_transcode_fallback (engine : LocalEngine) (voice : String)
    (env : LocalEnv) (d f : Bool) (store : Store)
    (items : List (Item × Option String)) (henv : envOkFor engine env) :
    (∃ st₀ st₁,
      generate_all_local engine voice { env with ffmpegOk := false } d f store items
          = Except.ok st₀
      ∧ generate_all_local engine voice { env with ffmpegOk := true } d f store items
          = Except.ok st₁
      ∧ st₀.log = st₁.log ∧ st₀.generated = st₁.generated ∧ st₀.skipped = st₁.skipped)
    ∧ (∀ (st : LocalState) (p : Item × Option String),
        env.ffmpegOk = false →
        ¬ ((lookupStore st.store p.1.filename).isSome = true ∧ f = false) →
        p.2 = none →
        ∃ st', localStep engine voice env false f st p = Except.ok st'
          ∧ lookupStore st'.store p.1.filename
              = some (Content.synth (localEngineName engine) AudioFmt.wav
                  p.1.text_for_audio (localVoiceOpt engine voice))
          ∧ st'.generated = st.generated + 1
          ∧ st'.log = st.log ++ [LogEvent.generating p.1.filename p.1.text_for_audio]
              ++ (if st.model = none then [LogEvent.loadingModel] else [])) := by
  constructor
  · obtain ⟨st₀, st₁, h₀, h₁, hg, hs, hl, -, -⟩ :=
      local_ffmpeg_blind engine voice env d f henv items
        (LocalState.mk store 0 0 [] none) (LocalState.mk store 0 0 [] none)
        rfl rfl rfl rfl (fun _ => rfl)
    exact ⟨st₀, st₁, h₀, h₁, hl, hg, hs⟩
  · intro st p hff hc hp2
    have hcall := localCall_ok engine voice env p st.model henv hp2
    rw [hff] at hcall
    simp only [Bool.false_eq_true, if_false] at hcall
    refine ⟨_, localStep_gen_ok engine voice env f st p _ _ _ hc hcall, ?_, rfl, rfl⟩
    exact lookupStore_set_self _ _ _

/-- Witness for C8 (amended) at a concrete input. -/
theorem c8_transcode_fallback_witness :
    (∃ st₀ st₁,
      generate_all_local LocalEngine.cosyvoice "v"
          { envNoFfmpeg with ffmpegOk := false } false false []
          [(Item.mk "t" "t" "f.mp3", none)] = Except.ok st₀
      ∧ generate_all_local LocalEngine.cosyvoice "v"
          { envNoFfmpeg with ffmpegOk := true } false false []
          [(Item.mk "t" "t" "f.mp3", none)] = Except.ok st₁
      ∧ st₀.log = st₁.log ∧ st₀.generated = st₁.generated ∧ st₀.skipped = st₁.skipped)
    ∧ (∃ st', localStep LocalEngine.cosyvoice "v" envNoFfmpeg false false
          (LocalState.mk [] 0 0 [] none) (Item.mk "t" "t" "f.mp3", none)
          = Except.ok st'
        ∧ lookupStore st'.store "f.mp3"
            = some (Content.synth "cosyvoice" AudioFmt.wav "t" (some "v"))
        ∧ st'.generated = 1
        ∧ st'.log = [LogEvent.generating "f.mp3" "t", LogEvent.loadingModel]) := by
  have h := c8_transcode_fallback LocalEngine.cosyvoice "v" envNoFfmpeg false false []
    [(Item.mk "t" "t" "f.mp3", none)] ⟨rfl, fun _ => ⟨rfl, rfl⟩, fun _ => rfl⟩
  refine ⟨h.1, ?_⟩
  have h2 := h.2 (LocalState.mk [] 0 0 [] none) (Item.mk "t" "t" "f.mp3", none)
    rfl (by simp [lookupStore]) rfl
  simpa using h2

/-! ## C10: engine session threading -/

/-- When the oracle says the synthesis call raises, no variant of the
engine call can return a session. -/
theorem localCall_raise_not_ok (engine : LocalEngine) (voice : String)
    (env : LocalEnv) (p : Item × Option String) (model : Option Model)
    (msg : String) (glog : List LogEvent) (mc : Model × Content)
    (hmsg : p.2 = some msg)
    (h : localCall engine voice env p model = (glog, Except.ok mc)) : False := by
  cases engine with
  | cosyvoice =>
      by_cases htorch : env.torchImportable = false
      · simp [localCall, generate_cosyvoice, htorch] at h
      · have htorch' : env.torchImportable = true := by
          cases hx : env.torchImportable
          · exact absurd hx htorch
          · rfl
        cases model with
        | some m => simp [localCall, generate_cosyvoice, htorch', hmsg] at h
        | none =>
            by_cases himp : env.cosyImportable = false
            · simp [localCall, generate_cosyvoice, htorch', himp] at h
            · have himp' : env.cosyImportable = true := by
                cases hx : env.cosyImportable
                · exact absurd hx himp
                · rfl
              cases hfind : findModelPath env.pathExists with
              | none => simp [localCall, generate_cosyvoice, htorch', himp', hfind] at h
              | some path =>
                  simp [localCall, generate_cosyvoice, htorch', himp', hfind, hmsg] at h
  | chattts =>
      by_cases htorch : env.torchImportable = false
      · simp [localCall, generate_chattts, htorch] at h
      · have htorch' : env.torchImportable = true := by
          cases hx : env.torchImportable
          · exact absurd hx htorch
          · rfl
        cases model with
        | some m => simp [localCall, generate_chattts, htorch', hmsg] at h
        | none =>
            by_cases himp : env.chatImportable = false
            · simp [localCall, generate_chattts, htorch', himp] at h
            · have himp' : env.chatImportable = true := by
                cases hx : env.chatImportable
                · exact absurd hx himp
                · rfl
              simp [localCall, generate_chattts, htorch', himp', hmsg] at h

/-- **C10.**  The session variable is threaded through the loop exactly
as the assignment `model = generate_...()` dictates: (i) if an item's
synthesis raises, the step leaves the session reference unchanged —
in particular still `None` when the model was constructed inside the
failed call and lost; (ii) consequently the next item that reaches
generation with the session still `None` reconstructs the model from
scratch, observable as another "Loading model" notice directly after
its `[generating]` line. -/
theorem c10_session_threading :
    (∀ (engine : LocalEngine) (voice : String) (env : LocalEnv) (d f : Bool)
        (st : LocalState) (p : Item × Option String) (msg : String) (st' : LocalState),
        p.2 = some msg →
        localStep engine voice env d f st p = Except.ok st' →
        st'.model = st.model)
    ∧ (∀ (engine : LocalEngine) (voice : String) (env : LocalEnv) (f : Bool)
        (st : LocalState) (p : Item × Option String),
        envOkFor engine env → st.model = none →
        ¬ ((lookupStore st.store p.1.filename).isSome = true ∧ f = false) →
        ∃ st' tail, localStep engine voice env false f st p = Except.ok st'
          ∧ st'.log = st.log ++ [LogEvent.generating p.1.filename p.1.text_for_audio,
              LogEvent.loadingModel] ++ tail) := by
  constructor
  · intro engine voice env d f st p msg st' hmsg h
    by_cases hc : (lookupStore st.store p.1.filename).isSome = true ∧ f = false
    · rw [localStep_skip_case engine voice env d f st p hc] at h
      injection h with h'
      subst h'
      rfl
    · by_cases hd : d = true
      · subst hd
        rw [localStep_dry_case engine voice env f st p hc] at h
        injection h with h'
        subst h'
        rfl
      · have hd' : d = false := by
          cases d
          · rfl
          · exact absurd rfl hd
        subst hd'
        cases hcall : localCall engine voice env p st.model with
        | mk glog res =>
          cases res with
          | ok mc =>
              exact absurd hcall
                (fun hcall => localCall_raise_not_ok engine voice env p st.model
                  msg glog mc hmsg hcall)
          | error err =>
              cases err with
              | exc m =>
                  rw [localStep_gen_exc engine voice env f st p glog m hc hcall] at h
                  injection h with h'
                  subst h'
                  rfl
              | exit c =>
                  rw [localStep_gen_exit engine voice env f st p glog c hc hcall] at h
                  exact absurd h (by simp)
  · intro engine voice env f st p henv hm hc
    cases hp2 : p.2 with
    | some msg =>
        have hcall := localCall_exc engine voice env p st.model msg henv hp2
        rw [hm] at hcall
        simp only [if_pos rfl] at hcall
        refine ⟨_, [LogEvent.error msg],
          localStep_gen_exc engine voice env f st p _ msg hc (by rw [hm]; exact hcall), ?_⟩
        show st.log ++ [LogEvent.generating p.1.filename p.1.text_for_audio]
            ++ [LogEvent.loadingModel] ++ [LogEvent.error msg] = _
        simp
    | none =>
        have hcall := localCall_ok engine voice env p st.model henv hp2
        rw [hm] at hcall
        simp only [if_pos rfl] at hcall
        refine ⟨_, [],
          localStep_gen_ok engine voice env f st p _ _ _ hc (by rw [hm]; exact hcall), ?_⟩
        show st.log ++ [LogEvent.generating p.1.filename p.1.text_for_audio]
            ++ [LogEvent.loadingModel] = _
        simp

/-- Witness for C10 at a concrete input: a first failing item leaves
the session `None` (the step returns with `model` unchanged), and the
next generation attempt logs "Loading model" again. -/
theorem c10_session_threading_witness :
    ((LocalState.mk [] 0 0
        [LogEvent.generating "f1.mp3" "t1", LogEvent.loadingModel,
         LogEvent.error "boom"] none).model = (LocalState.mk [] 0 0 [] none).model)
    ∧ (∃ st' tail, localStep LocalEngine.cosyvoice "v" envAllOk false false
          (LocalState.mk [] 0 0
            [LogEvent.generating "f1.mp3" "t1", LogEvent.loadingModel,
             LogEvent.error "boom"] none)
          (Item.mk "t2" "t2" "f2.mp3", none) = Except.ok st'
        ∧ st'.log = [LogEvent.generating "f1.mp3" "t1", LogEvent.loadingModel,
              LogEvent.error "boom"]
            ++ [LogEvent.generating "f2.mp3" "t2", LogEvent.loadingModel] ++ tail) := by
  constructor
  · exact c10_session_threading.1 LocalEngine.cosyvoice "v" envAllOk false false
      (LocalState.mk [] 0 0 [] none) (Item.mk "t1" "t1" "f1.mp3", some "boom")
      "boom" (LocalState.mk [] 0 0
        [LogEvent.generating "f1.mp3" "t1", LogEvent.loadingModel,
         LogEvent.error "boom"] none) rfl rfl
  · exact c10_session_threading.2 LocalEngine.cosyvoice "v" envAllOk false
      (LocalState.mk [] 0 0
        [LogEvent.generating "f1.mp3" "t1", LogEvent.loadingModel,
         LogEvent.error "boom"] none)
      (Item.mk "t2" "t2" "f2.mp3", none) ⟨rfl, fun _ => ⟨rfl, rfl⟩, fun _ => rfl⟩ rfl
      (by simp [lookupStore])
